import Mathlib

/-!
Verification of the btrfs-image dump/restore engine and the btrfs-crc helper
(files `btrfs-image.c` and `btrfs-crc.c`).

The code is shallowly embedded: byte buffers become `List Nat` (each element a
byte value `< 256`), machine integers become `Nat` with explicit `% 2^w` at the
points where the C code performs wrapping arithmetic, fallible functions return
`Except`/`Option`/an `Int` error code, and the pthread worker pools - which the
restore driver drains after every cluster, and which have exactly one worker
thread on restore - are modelled by processing the queued items sequentially in
submission order.  External collaborators that the sources only call (the zlib
codec, positioned file writes) are modelled as function parameters or as
accumulated write logs, as the specification declares them out of scope.
-/

namespace BtrfsImage

/-! ## Byte-buffer primitives

`List Nat` stands for a region of memory.  `listWrite l off bs` is `memcpy`
into the middle of the buffer, clipped so the buffer keeps its length (the C
counterparts would touch memory out of bounds there).  `slice l off n` reads
`n` bytes at `off`. -/

def slice (l : List Nat) (off n : Nat) : List Nat :=
  (l.drop off).take n

def listWrite (l : List Nat) (off : Nat) (bs : List Nat) : List Nat :=
  (l.take off ++ bs ++ l.drop (off + bs.length)).take l.length

def listMemset (l : List Nat) (off n : Nat) : List Nat :=
  listWrite l off (List.replicate n 0)

/-- Little-endian decoding of a byte list. -/
def bytesToNatLE : List Nat → Nat
  | [] => 0
  | b :: bs => b + 256 * bytesToNatLE bs

/-- Little-endian encoding of `v` on `k` bytes (truncating to `v % 256^k`). -/
def natToLE : Nat → Nat → List Nat
  | 0, _ => []
  | k + 1, v => (v % 256) :: natToLE k (v / 256)

def u16le (v : Nat) : List Nat := natToLE 2 v
def u32le (v : Nat) : List Nat := natToLE 4 v
def u64le (v : Nat) : List Nat := natToLE 8 v

/-- `listWrite` with an arbitrary fill byte (`memset(p + off, v, n)`). -/
def listFill (l : List Nat) (off n v : Nat) : List Nat :=
  listWrite l off (List.replicate n v)

/-- Generic little-endian read of `k` bytes at `off`. -/
def readLE (l : List Nat) (off k : Nat) : Nat := bytesToNatLE (slice l off k)

def readU8 (l : List Nat) (off : Nat) : Nat := readLE l off 1
def readU16le (l : List Nat) (off : Nat) : Nat := readLE l off 2
def readU32le (l : List Nat) (off : Nat) : Nat := readLE l off 4
def readU64le (l : List Nat) (off : Nat) : Nat := readLE l off 8

/-! ## Shared constants (`btrfs-image.c` lines 39-45 and the btrfs disk format) -/

def HEADER_MAGIC : Nat := 0xbd5c25e27295668b
def MAX_PENDING_SIZE : Nat := 256 * 1024
def BLOCK_SIZE : Nat := 1024
/-- `(BLOCK_SIZE - sizeof(struct meta_cluster)) / sizeof(struct meta_cluster_item)`
with a 21-byte packed header and 12-byte packed items. -/
def ITEMS_PER_CLUSTER : Nat := (BLOCK_SIZE - 21) / 12
def COMPRESS_NONE : Nat := 0
def COMPRESS_ZLIB : Nat := 1
def BTRFS_SUPER_INFO_OFFSET : Nat := 64 * 1024
/-- `BTRFS_SUPER_FLAG_METADUMP = (1ULL << 33)`. -/
def BTRFS_SUPER_FLAG_METADUMP : Nat := 2 ^ 33
def BTRFS_CHUNK_ITEM_KEY : Nat := 228
def BTRFS_CSUM_ITEM_KEY : Nat := 120
def BTRFS_EXTENT_DATA_KEY : Nat := 108
def BTRFS_FILE_EXTENT_INLINE : Nat := 0
def BTRFS_BLOCK_GROUP_SYSTEM : Nat := 2
def BTRFS_FIRST_CHUNK_TREE_OBJECTID : Nat := 256
def BTRFS_EXTENT_TREE_OBJECTID : Nat := 2
def BTRFS_CSUM_SIZE : Nat := 32
def BTRFS_CRC32_SIZE : Nat := 4
/-- wrap-around modulus of the C `u64` arithmetic -/
def U64MOD : Nat := 2 ^ 64
/-- `-EIO`, the error code the sources return on I/O and format errors. -/
def EIO : Int := 5

/-! ## CRC32C and `csum_block` (`btrfs-image.c` lines 124-131)

Modelled from the spec: the CRC32C routine itself lives in `crc32c.c`, which
the specification lists as an out-of-scope external ("the CRC32C routine
(assumed available)").  We use the standard bit-serial Castagnoli CRC; every
claim below depends only on where the checksum is computed and stored, never
on concrete CRC values. -/

def crc32c_round (c : Nat) : Nat :=
  if c % 2 = 1 then (c / 2) ^^^ 0x82F63B78 else c / 2

def crc32c_byte (c b : Nat) : Nat :=
  crc32c_round (crc32c_round (crc32c_round (crc32c_round
    (crc32c_round (crc32c_round (crc32c_round (crc32c_round ((c ^^^ b) % 2 ^ 32))))))))

def crc32c (c : Nat) (bytes : List Nat) : Nat := bytes.foldl crc32c_byte c

/-- `btrfs_csum_final(crc, result)`: store `~crc` little-endian (disk-io.c,
out of scope; modelled from the spec's "finalised CRC"). -/
def btrfs_csum_final (crc : Nat) : List Nat := u32le (crc ^^^ 0xFFFFFFFF)

/-- `csum_block(buf, len)`: CRC32C (seeded `~0`) of bytes `[32, len)`, finalised
and stored in bytes `[0, 4)`.  Bytes `[4, 32)` are not touched. -/
def csum_block (buf : List Nat) (len : Nat) : List Nat :=
  listWrite buf 0 (btrfs_csum_final
    (crc32c 0xFFFFFFFF (slice buf BTRFS_CSUM_SIZE (len - BTRFS_CSUM_SIZE))))

/-! ## The coalescer (`add_extent` / the pending-run part of `flush_pending`,
`btrfs-image.c` lines 472-569)

`flush_pending`'s I/O (reading tree blocks or data extents into the run
buffer and handing the buffer to the worker pool) is abstracted into the
emitted run `(start, size, kind)`; the state it keeps on `struct
metadump_struct` is `pending_start`, `pending_size` and `data`. -/

structure metadump_struct where
  pending_start : Nat
  pending_size : Nat
  data : Nat
  deriving Repr, DecidableEq

/-- `metadump_init`: `memset` to zero, then `pending_start = (u64)-1`. -/
def metadump_init_state : metadump_struct := ⟨U64MOD - 1, 0, 0⟩

/-- The pending-run part of `flush_pending(md, 0)`: if a run is pending, emit
it and reset `pending_start`/`pending_size`. -/
def flush_pending (md : metadump_struct) : metadump_struct × List (Nat × Nat × Nat) :=
  if md.pending_size ≠ 0 then
    ({ md with pending_start := U64MOD - 1, pending_size := 0 },
     [(md.pending_start, md.pending_size, md.data)])
  else (md, [])

/-- `add_extent(start, size, md, data)`.  All sums are the C `u64` sums. -/
def add_extent (md : metadump_struct) (start size data : Nat) :
    metadump_struct × List (Nat × Nat × Nat) :=
  if md.data ≠ data ∨ MAX_PENDING_SIZE < (md.pending_size + size) % U64MOD ∨
      (md.pending_start + md.pending_size) % U64MOD ≠ start then
    let fr := flush_pending md
    let md1 := { fr.1 with pending_start := start }
    ({ md1 with pending_size := (md1.pending_size + size) % U64MOD, data := data }, fr.2)
  else
    ({ md with pending_size := (md.pending_size + size) % U64MOD, data := data }, [])

/-- Run a sequence of `add_extent` calls, collecting the flushed runs. -/
def run_adds : metadump_struct → List (Nat × Nat × Nat) → metadump_struct × List (Nat × Nat × Nat)
  | md, [] => (md, [])
  | md, (s, sz, d) :: ops =>
    let r := add_extent md s sz d
    let r2 := run_adds r.1 ops
    (r2.1, r.2 ++ r2.2)

/-! ## The dump worker and cluster writer (`dump_worker`, `write_buffers`,
`btrfs-image.c` lines 202-243 and 340-416)

The zlib codec is a parameter (`comp`; `none` models a non-`Z_OK` return) and
`fwrite` to the output stream is modelled by accumulating the written bytes
(the spec puts both outside the core).  `struct metadump_struct` has no error
field; the only error record of a failed compression is `async->error`. -/

structure dump_async where
  start : Nat
  size : Nat
  buffer : List Nat
  bufsize : Nat
  error : Nat
  deriving Repr, DecidableEq

/-- zlib's `compressBound` (external; modelled - no claim depends on it). -/
def compressBound (n : Nat) : Nat := n + n / 1000 + 12

/-- One `dump_worker` loop body on a dequeued item: with compression enabled,
replace the buffer by the codec output; a codec failure sets `async->error = 1`
(the freshly malloc-ed destination buffer is left as modelled zeroes). -/
def dump_worker_item (comp : List Nat → Option (List Nat)) (compress_level : Nat)
    (a : dump_async) : dump_async :=
  if 0 < compress_level then
    match comp a.buffer with
    | some out => { a with buffer := out, bufsize := out.length }
    | none => { a with buffer := List.replicate (compressBound a.size) 0,
                       bufsize := compressBound a.size, error := 1 }
  else a

/-- The cluster header block `write_buffers` emits: magic, bytenr, nritems,
compress flag, one `(bytenr, size)` descriptor per item, zero-filled to
`BLOCK_SIZE`. -/
def cluster_block_of (bytenr compressFlag : Nat) (items : List dump_async) : List Nat :=
  u64le HEADER_MAGIC ++ u64le bytenr ++ u32le items.length ++ [compressFlag]
    ++ (items.map (fun a => u64le a.start ++ u32le a.bufsize)).flatten
    ++ List.replicate (BLOCK_SIZE - (21 + 12 * items.length)) 0

/-- `write_buffers(md, &next)` with `fwrite` succeeding: returns the error
code, the bytes appended to the stream, and `*next`.  On an empty ordered
list it writes nothing and sets `*next = 0`.  Note that nothing here reads
`async->error`. -/
def write_buffers (bytenr compressFlag : Nat) (items : List dump_async) :
    Int × List Nat × Nat :=
  if items.isEmpty then (0, [], 0)
  else
    let hdr := cluster_block_of bytenr compressFlag items
    let payloads := (items.map (fun a => a.buffer.take a.bufsize)).flatten
    let b := bytenr + BLOCK_SIZE + (items.map (fun a => a.bufsize)).sum
    if b % BLOCK_SIZE ≠ 0 then
      (0, hdr ++ payloads ++ List.replicate (BLOCK_SIZE - b % BLOCK_SIZE) 0,
       b + (BLOCK_SIZE - b % BLOCK_SIZE))
    else (0, hdr ++ payloads, b)

/-- Erase the per-item error flag (used to state that `write_buffers` never
looks at it). -/
def clear_error (a : dump_async) : dump_async := { a with error := 0 }

/-! ## The brute-force search of `btrfs-crc.c` (lines 97-131)

The candidate buffer is `length` bytes, initially all `' '` (32).  Each outer
iteration first evaluates the CRC32C of the whole buffer against the target
(only printing on a match, so the comparison does not change the state), then
advances the buffer.  `crc_search` returns the list of evaluated candidate
buffers. -/

/-- The carry scan `do { i++; if (i > length) break; } while (buf[i] == 127);`.
Reads one past the end of the buffer exactly as the C does; `getD _ 0` models
that stray byte as 0. -/
def crc_scan (buf : List Nat) (length i : Nat) : Nat :=
  if length < i + 1 then i + 1
  else if buf.getD (i + 1) 0 = 127 then crc_scan buf length (i + 1) else i + 1
  termination_by length - i
  decreasing_by simp_wf; omega

/-- One advance of the candidate buffer; `none` when the outer loop breaks. -/
def crc_step (length : Nat) (buf : List Nat) (i : Nat) : Option (List Nat × Nat) :=
  if buf.getD i 0 = 127 then
    let j := crc_scan buf length i
    if length < j then none
    else
      let b0 := buf.getD j 0 + 1
      let b1 := if b0 = 47 then b0 + 1 else b0
      some (listFill (listWrite buf j [b1]) 0 j 32, 0)
  else some (listWrite buf i [buf.getD i 0 + 1], i)

/-- The evaluated candidates of the first `fuel` iterations of the search. -/
def crc_search (length : Nat) : Nat → List Nat → Nat → List (List Nat)
  | 0, _, _ => []
  | fuel + 1, buf, i =>
    buf :: (match crc_step length buf i with
            | none => []
            | some (buf2, i2) => crc_search length fuel buf2 i2)

/-! ## Command-line handling of `btrfs-image.c main` (lines 1504-1578) -/

inductive CliOpt where
  | rflag
  | tflag (v : Int)
  | cflag (v : Int)
  | oflag
  deriving Repr, DecidableEq

structure MainOpts where
  num_threads : Int
  compress_level : Int
  create : Bool
  old_restore : Bool
  deriving Repr, DecidableEq

/-- The `getopt` loop: `-t` outside `1..32` and `-c` outside `0..9` call
`print_usage` (modelled as `Except.error`). -/
def parse_opts_go : MainOpts → List CliOpt → Except Unit MainOpts
  | o, [] => .ok o
  | o, .rflag :: rest => parse_opts_go { o with create := false } rest
  | o, .tflag v :: rest =>
    if v ≤ 0 ∨ 32 < v then .error () else parse_opts_go { o with num_threads := v } rest
  | o, .cflag v :: rest =>
    if v < 0 ∨ 9 < v then .error () else parse_opts_go { o with compress_level := v } rest
  | o, .oflag :: rest => parse_opts_go { o with old_restore := true } rest

def parse_opts (args : List CliOpt) : Except Unit MainOpts :=
  match parse_opts_go ⟨0, 0, true, false⟩ args with
  | .error e => .error e
  | .ok o => if o.old_restore ∧ o.create then .error () else .ok o

/-- Which engine `main` starts and with which arguments. -/
inductive Invocation where
  | dump (num_threads compress_level : Int)
  | restore (old_restore : Bool) (num_threads : Int)
  deriving Repr, DecidableEq

/-- Lines 1560-1570: the CPU-count default applies only via `num_threads`,
and the restore call passes the literal `1` as its thread count. -/
def main_invocation (ncpus : Int) (o : MainOpts) : Invocation :=
  let nt := if o.num_threads = 0 ∧ 0 < o.compress_level then
              (if ncpus ≤ 0 then 1 else ncpus)
            else o.num_threads
  if o.create then .dump nt o.compress_level else .restore o.old_restore 1

/-! ## The block masker (`zero_items` / `copy_buffer`, `btrfs-image.c` lines
133-200)

Byte offsets are the btrfs disk format the sources reach through the
`ctree.h` accessors: `struct btrfs_header` is 101 bytes packed (csum[32] at
0, fsid[16] at 32, bytenr at 48, flags at 56, chunk_tree_uuid[16] at 64,
generation at 80, owner at 88, nritems (u32) at 96, level (u8) at 100);
`struct btrfs_item` is 25 bytes
(disk key: objectid at +0, type at +8, offset at +9; item offset (u32) at
+17, item size (u32) at +21); leaf data starts at 101; `struct
btrfs_key_ptr` is 33 bytes; `struct btrfs_file_extent_item` holds its type
byte at +20 and inline data from +21. -/

structure extent_buffer where
  start : Nat
  len : Nat
  data : List Nat
  deriving Repr, DecidableEq

def btrfs_header_nritems (data : List Nat) : Nat := readU32le data 96
def btrfs_header_level (data : List Nat) : Nat := readU8 data 100
/-- offset of item slot `n` in a leaf: `sizeof(header) + n * sizeof(struct btrfs_item)` -/
def btrfs_item_nr_offset (n : Nat) : Nat := 101 + 25 * n
def btrfs_item_offset_nr (data : List Nat) (i : Nat) : Nat := readU32le data (101 + 25 * i + 17)
def btrfs_item_size_nr (data : List Nat) (i : Nat) : Nat := readU32le data (101 + 25 * i + 21)
def btrfs_item_key_type (data : List Nat) (i : Nat) : Nat := readU8 data (101 + 25 * i + 8)
/-- `btrfs_leaf_data`: offset of the item data area in the block. -/
def btrfs_leaf_data : Nat := 101

/-- The body of `zero_items`' loop over item slots `i, i+1, ...` (`n` slots
left): zero checksum-item payloads and inline file-extent payloads in `dst`,
reading the item headers from `src`. -/
def zero_items_go (src : List Nat) : List Nat → Nat → Nat → List Nat
  | dst, _, 0 => dst
  | dst, i, n + 1 =>
    let ktype := btrfs_item_key_type src i
    let dst2 :=
      if ktype = BTRFS_CSUM_ITEM_KEY then
        listMemset dst (btrfs_leaf_data + btrfs_item_offset_nr src i)
          (btrfs_item_size_nr src i)
      else if ktype ≠ BTRFS_EXTENT_DATA_KEY then dst
      else
        let fi := btrfs_leaf_data + btrfs_item_offset_nr src i
        if readU8 src (fi + 20) ≠ BTRFS_FILE_EXTENT_INLINE then dst
        else listMemset dst (fi + 21) (btrfs_item_size_nr src i - 21)
    zero_items_go src dst2 (i + 1) n

def zero_items (dst : List Nat) (src : extent_buffer) : List Nat :=
  zero_items_go src.data dst 0 (btrfs_header_nritems src.data)

/-- `copy_buffer(dst, src)`: copy the block, return it unchanged if it is the
super-block, otherwise zero the slack region of the empty/leaf/node cases
(and, for leaves, the checksum and inline payloads) and recompute the CRC. -/
def copy_buffer (src : extent_buffer) : List Nat :=
  let dst := src.data.take src.len
  if src.start = BTRFS_SUPER_INFO_OFFSET then dst
  else
    let level := btrfs_header_level src.data
    let nritems := btrfs_header_nritems src.data
    let dst2 :=
      if nritems = 0 then
        listMemset dst 101 (src.len - 101)
      else if level = 0 then
        let sz := btrfs_leaf_data + btrfs_item_offset_nr src.data (nritems - 1) -
          btrfs_item_nr_offset nritems
        zero_items (listMemset dst (btrfs_item_nr_offset nritems) sz) src
      else
        let sz := 101 + 33 * nritems
        listMemset dst sz (src.len - sz)
    csum_block dst2 src.len

/-! ## The super-block rewriter (`update_super_old` / `update_super`,
`btrfs-image.c` lines 906-999)

The 4096-byte super-block buffer uses the disk layout behind the `ctree.h`
accessors (2012-era `struct btrfs_super_block`, packed): csum[32] at 0,
fsid[16] at 32, bytenr at 48, flags at 56, magic at 64, ten u64 fields, then
sectorsize (u32) at 144, nodesize at 148, leafsize at 152, stripesize at 156,
sys_chunk_array_size (u32) at 160, further fields, `struct btrfs_dev_item`
(98 bytes) at 201 with devid at 201 and uuid[16] at 267, label[256] at 299,
reserved[32 x u64] at 555, and sys_chunk_array[2048] at 811.  A `struct
btrfs_disk_key` is 17 bytes (objectid at +0, type at +8, offset at +9); a
`struct btrfs_chunk` is 80 bytes (length +0, owner +8, stripe_len +16, type
+24, io_align +32, io_width +36, sector_size +40, num_stripes (u16) +44,
sub_stripes (u16) +46, then one `struct btrfs_stripe`: devid +48, offset
+56, dev_uuid[16] +64). -/

def SUPER_FLAGS_OFF : Nat := 56
def SUPER_SECTORSIZE_OFF : Nat := 144
def SUPER_LEAFSIZE_OFF : Nat := 152
def SUPER_SYS_ARRAY_SIZE_OFF : Nat := 160
def SUPER_DEVID_OFF : Nat := 201
def SUPER_DEV_UUID_OFF : Nat := 267
def SUPER_FSID_OFF : Nat := 32
def SYS_CHUNK_ARRAY_OFF : Nat := 811

def btrfs_super_flags (buf : List Nat) : Nat := readU64le buf SUPER_FLAGS_OFF
def btrfs_super_sectorsize (buf : List Nat) : Nat := readU32le buf SUPER_SECTORSIZE_OFF
def btrfs_super_leafsize (buf : List Nat) : Nat := readU32le buf SUPER_LEAFSIZE_OFF
def btrfs_super_sys_array_size (buf : List Nat) : Nat :=
  readU32le buf SUPER_SYS_ARRAY_SIZE_OFF

/-- `btrfs_chunk_item_size(num_stripes)` = `sizeof(struct btrfs_chunk)` with
`num_stripes - 1` extra stripes = `48 + 32 * num_stripes`. -/
def chunk_item_size (num_stripes : Nat) : Nat := 48 + 32 * num_stripes

/-- `update_super_old(buffer)`: set the `METADUMP` flag, overwrite the start
of the system-chunk array with one synthetic key + single-stripe chunk,
shrink `sys_array_size` to `17 + 80`, and recompute the CRC.  The field
stores follow the C statement order. -/
def update_super_old (buf : List Nat) : List Nat :=
  let sectorsize := btrfs_super_sectorsize buf
  let flags := btrfs_super_flags buf ||| BTRFS_SUPER_FLAG_METADUMP
  let b1 := listWrite buf SUPER_FLAGS_OFF (u64le flags)
  let b2 := listWrite b1 SYS_CHUNK_ARRAY_OFF
    (u64le BTRFS_FIRST_CHUNK_TREE_OBJECTID ++ [BTRFS_CHUNK_ITEM_KEY] ++ u64le 0)
  let b3 := listWrite b2 (SYS_CHUNK_ARRAY_OFF + 17) (u64le (U64MOD - 1))
  let b4 := listWrite b3 (SYS_CHUNK_ARRAY_OFF + 17 + 8) (u64le BTRFS_EXTENT_TREE_OBJECTID)
  let b5 := listWrite b4 (SYS_CHUNK_ARRAY_OFF + 17 + 16) (u64le (64 * 1024))
  let b6 := listWrite b5 (SYS_CHUNK_ARRAY_OFF + 17 + 24) (u64le BTRFS_BLOCK_GROUP_SYSTEM)
  let b7 := listWrite b6 (SYS_CHUNK_ARRAY_OFF + 17 + 32) (u32le sectorsize)
  let b8 := listWrite b7 (SYS_CHUNK_ARRAY_OFF + 17 + 36) (u32le sectorsize)
  let b9 := listWrite b8 (SYS_CHUNK_ARRAY_OFF + 17 + 40) (u32le sectorsize)
  let b10 := listWrite b9 (SYS_CHUNK_ARRAY_OFF + 17 + 44) (u16le 1)
  let b11 := listWrite b10 (SYS_CHUNK_ARRAY_OFF + 17 + 46) (u16le 0)
  let b12 := listWrite b11 (SYS_CHUNK_ARRAY_OFF + 17 + 48) (slice b11 SUPER_DEVID_OFF 8)
  let b13 := listWrite b12 (SYS_CHUNK_ARRAY_OFF + 17 + 56) (u64le 0)
  let b14 := listWrite b13 (SYS_CHUNK_ARRAY_OFF + 17 + 64) (slice b13 SUPER_DEV_UUID_OFF 16)
  let b15 := listWrite b14 SUPER_SYS_ARRAY_SIZE_OFF (u32le (17 + 80))
  csum_block b15 4096

/-- The `while (cur < array_size)` loop of `update_super`, in place on the
whole 4096-byte buffer: `cur` and `ncur` are the read and write offsets into
the array (the C `cur` and `new_cur`/`new_array_size`/`write_ptr`, which
advance in lock step).  Each iteration consumes at least 65 bytes of `cur`,
so fuel `array_size + 1` never runs out. -/
def update_super_go (array_size : Nat) :
    Nat → List Nat → Nat → Nat → Int × List Nat × Nat
  | 0, buf, _, ncur => (0, buf, ncur)
  | fuel + 1, buf, cur, ncur =>
    if cur < array_size then
      let ktype := readU8 buf (SYS_CHUNK_ARRAY_OFF + cur + 8)
      let koff := readU64le buf (SYS_CHUNK_ARRAY_OFF + cur + 9)
      let b1 := listWrite buf (SYS_CHUNK_ARRAY_OFF + ncur)
        (slice buf (SYS_CHUNK_ARRAY_OFF + cur) 17)
      let cur1 := cur + 17
      let ncur1 := ncur + 17
      if ktype = BTRFS_CHUNK_ITEM_KEY then
        let old_num_stripes := readU16le b1 (SYS_CHUNK_ARRAY_OFF + cur1 + 44)
        let c1 := listWrite b1 (SYS_CHUNK_ARRAY_OFF + ncur1)
          (slice b1 (SYS_CHUNK_ARRAY_OFF + cur1) 80)
        let c2 := listWrite c1 (SYS_CHUNK_ARRAY_OFF + ncur1 + 44) (u16le 1)
        let c3 := listWrite c2 (SYS_CHUNK_ARRAY_OFF + ncur1 + 46) (u16le 0)
        let c4 := listWrite c3 (SYS_CHUNK_ARRAY_OFF + ncur1 + 24)
          (u64le BTRFS_BLOCK_GROUP_SYSTEM)
        let c5 := listWrite c4 (SYS_CHUNK_ARRAY_OFF + ncur1 + 48)
          (slice c4 SUPER_DEVID_OFF 8)
        let c6 := listWrite c5 (SYS_CHUNK_ARRAY_OFF + ncur1 + 56) (u64le koff)
        let c7 := listWrite c6 (SYS_CHUNK_ARRAY_OFF + ncur1 + 64)
          (slice c6 SUPER_DEV_UUID_OFF 16)
        update_super_go array_size fuel c7
          (cur1 + chunk_item_size old_num_stripes) (ncur1 + 80)
      else (- EIO, b1, ncur1)
    else (0, buf, ncur)

/-- `update_super(buffer)`: repack the system-chunk array to single-stripe
entries; on a non-chunk key, return `-EIO` with the buffer as mutated so far
(no `sys_array_size` update, no CRC recomputation - and no `METADUMP` flag
in either case). -/
def update_super (buf : List Nat) : Int × List Nat :=
  if (update_super_go (btrfs_super_sys_array_size buf)
        (btrfs_super_sys_array_size buf + 1) buf 0 0).1 = 0 then
    (0, csum_block
      (listWrite (update_super_go (btrfs_super_sys_array_size buf)
          (btrfs_super_sys_array_size buf + 1) buf 0 0).2.1
        SUPER_SYS_ARRAY_SIZE_OFF
        (u32le (update_super_go (btrfs_super_sys_array_size buf)
          (btrfs_super_sys_array_size buf + 1) buf 0 0).2.2)) 4096)
  else ((update_super_go (btrfs_super_sys_array_size buf)
          (btrfs_super_sys_array_size buf + 1) buf 0 0).1,
        (update_super_go (btrfs_super_sys_array_size buf)
          (btrfs_super_sys_array_size buf + 1) buf 0 0).2.1)

/-! ### System-chunk-array entries, for stating what `update_super` does -/

/-- One well-formed entry of the system chunk array: a chunk-item disk key
(objectid, offset) followed by the raw chunk item bytes. -/
structure sys_entry where
  objectid : Nat
  koffset : Nat
  chunk : List Nat
  deriving Repr, DecidableEq

def entry_num_stripes (e : sys_entry) : Nat := readU16le e.chunk 44

/-- The 17 bytes of the entry's disk key. -/
def entry_key_bytes (e : sys_entry) : List Nat :=
  u64le e.objectid ++ ([BTRFS_CHUNK_ITEM_KEY] ++ u64le e.koffset)

/-- The on-disk bytes of the entry. -/
def entry_bytes (e : sys_entry) : List Nat :=
  entry_key_bytes e ++ e.chunk

def entry_wf (e : sys_entry) : Prop :=
  e.koffset < U64MOD ∧ 1 ≤ entry_num_stripes e ∧
    e.chunk.length = chunk_item_size (entry_num_stripes e)

/-- The single-stripe rewrite `update_super` applies to one chunk item: keep
the first `sizeof(struct btrfs_chunk)` bytes, then set num_stripes = 1,
sub_stripes = 0, type = SYSTEM, stripe devid/offset/uuid. -/
def fix_chunk (devid uuid : List Nat) (koff : Nat) (cb : List Nat) : List Nat :=
  let c1 := cb.take 80
  let c2 := listWrite c1 44 (u16le 1)
  let c3 := listWrite c2 46 (u16le 0)
  let c4 := listWrite c3 24 (u64le BTRFS_BLOCK_GROUP_SYSTEM)
  let c5 := listWrite c4 48 devid
  let c6 := listWrite c5 56 (u64le koff)
  listWrite c6 64 uuid

def entry_out (devid uuid : List Nat) (e : sys_entry) : List Nat :=
  entry_key_bytes e ++ fix_chunk devid uuid e.koffset e.chunk

/-! ### A concrete super block for exercising `update_super` on a bogus key -/

/-- An 80-byte single-stripe chunk item (num_stripes = 1 at offset 44). -/
def c10wit_chunk : List Nat := List.replicate 44 0 ++ (u16le 1 ++ List.replicate 34 0)

def c10wit_entry : sys_entry := ⟨BTRFS_FIRST_CHUNK_TREE_OBJECTID, 4096, c10wit_chunk⟩

/-- 17 bytes whose key-type byte (offset 8) is 7, not `BTRFS_CHUNK_ITEM_KEY`. -/
def c10wit_bad : List Nat := List.replicate 17 7

/-- The first 811 bytes of the super: `sys_array_size` = 114 at offset 160. -/
def c10wit_pre : List Nat := List.replicate 160 0 ++ (u32le 114 ++ List.replicate 647 0)

/-- A 4096-byte super whose system-chunk array is one good entry followed by
a bogus key. -/
def c10wit_orig : List Nat :=
  c10wit_pre ++ (entry_bytes c10wit_entry ++ (c10wit_bad ++ List.replicate 3171 0))

/-! ## The restore engine (`restore_worker`, `fill_mdres_info`, `add_cluster`,
`wait_for_worker`, `restore_metadump`; `btrfs-image.c` lines 1155-1492)

zlib's `uncompress` is external to the repository: its data transformation is
the parameter `uncomp` (`none` models corrupt input) and the C call's
contract - a non-`Z_OK` return (`Z_BUF_ERROR`) when the payload does not fit
the `destLen`-byte destination - is `uncompress_call`.
`fixup_chunk_tree_block`'s leaf rewriting is the parameter `fixupf` (its only
non-zero return is `-ENOMEM` on a failed `malloc`, which the model's
always-succeeding allocation excludes); every theorem about this model holds
for all choices of both parameters.  The worker pool has a single worker (see
C7) and the driver drains the queue after each cluster, so a cluster's items
are processed in queue order; `scratch` is the indeterminate current content
of the worker's 512 KiB scratch buffer, which a failed `uncompress` leaves
behind (the C code goes on to fix up and `pwrite` those stale bytes, with
`err` already `-EIO`). -/

def BTRFS_SUPER_MIRROR_MAX : Nat := 3

/-- Modelled from the spec: the "standard backup-super offsets" (the
`btrfs_sb_offset` helper lives in the filesystem headers, outside `src/`):
64 KiB for mirror 0, then `16384 << 12 * mirror`. -/
def btrfs_sb_offset (mirror : Nat) : Nat :=
  if mirror = 0 then BTRFS_SUPER_INFO_OFFSET else 16384 <<< (12 * mirror)

structure mdrestore_struct where
  leafsize : Nat
  devid : Nat
  uuid : List Nat
  fsid : List Nat
  compress_method : Nat
  error : Int
  old_restore : Bool
  deriving Repr, DecidableEq

/-- `mdrestore_init`: `memset(mdres, 0, sizeof(*mdres))`, then `old_restore`
from the command line. -/
def mdrestore_init_state (old_restore : Bool) : mdrestore_struct :=
  ⟨0, 0, List.replicate 16 0, List.replicate 16 0, 0, 0, old_restore⟩

/-- One queued work item (`struct async_work` on the restore side). -/
structure rst_item where
  start : Nat
  buffer : List Nat
  deriving Repr, DecidableEq

/-- The C call `uncompress(buffer, &size /- = cap -/, in, insize)`: zlib
reports `Z_OK` only when the whole decompressed payload fits in the `cap`
bytes of destination room. -/
def uncompress_call (uncomp : List Nat → Option (List Nat)) (cap : Nat)
    (inbuf : List Nat) : Except Int (List Nat) :=
  match uncomp inbuf with
  | none => .error (- EIO)
  | some out => if cap < out.length then .error (- EIO) else .ok out

/-- `fill_mdres_info(mdres, async)`: decompress the super item into a fresh
`2 * MAX_PENDING_SIZE` buffer when zlib is on (a non-`Z_OK` return is
`-EIO`), then record `leafsize`, `fsid`, the device uuid and the devid. -/
def fill_mdres_info (uncomp : List Nat → Option (List Nat))
    (mdres : mdrestore_struct) (a : rst_item) : Except Int mdrestore_struct :=
  if mdres.compress_method = COMPRESS_ZLIB then
    match uncompress_call uncomp (MAX_PENDING_SIZE * 2) a.buffer with
    | .error e => .error e
    | .ok outbuf =>
      .ok { mdres with
        leafsize := btrfs_super_leafsize outbuf,
        fsid := slice outbuf SUPER_FSID_OFF 16,
        uuid := slice outbuf SUPER_DEV_UUID_OFF 16,
        devid := readU64le outbuf SUPER_DEVID_OFF }
  else
    .ok { mdres with
      leafsize := btrfs_super_leafsize a.buffer,
      fsid := slice a.buffer SUPER_FSID_OFF 16,
      uuid := slice a.buffer SUPER_DEV_UUID_OFF 16,
      devid := readU64le a.buffer SUPER_DEVID_OFF }

/-- `write_backup_supers(fd, buf)`: 4096-byte positioned writes at the backup
offsets, stopping at the first that would pass the end of the target file. -/
def write_backup_supers (target_size : Nat) (buf : List Nat) :
    List (Nat × List Nat) :=
  (((List.range BTRFS_SUPER_MIRROR_MAX).drop 1).takeWhile
    (fun i => btrfs_sb_offset i + 4096 ≤ target_size)).map
    (fun i => (btrfs_sb_offset i, buf.take 4096))

/-- The decompression step of the worker body: `(err, outbuf)`. -/
def rwi_dec (uncomp : List Nat → Option (List Nat)) (scratch : List Nat)
    (mdres : mdrestore_struct) (a : rst_item) : Int × List Nat :=
  if mdres.compress_method = COMPRESS_ZLIB then
    match uncompress_call uncomp (MAX_PENDING_SIZE * 2) a.buffer with
    | .error e => (e, scratch)
    | .ok out => (0, out)
  else (0, a.buffer)

/-- The fixup step of the worker body: the super fixup (old or normal mode)
on the super item, the chunk-tree fixup on the rest unless `old_restore`; a
non-zero `update_super` return overrides `err`. -/
def rwi_fixed (fixupf : mdrestore_struct → rst_item → List Nat → List Nat)
    (mdres : mdrestore_struct) (a : rst_item) (dec : Int × List Nat) :
    Int × List Nat :=
  if a.start = BTRFS_SUPER_INFO_OFFSET then
    if mdres.old_restore then (dec.1, update_super_old dec.2)
    else
      (if (update_super dec.2).1 ≠ 0 then (update_super dec.2).1 else dec.1,
       (update_super dec.2).2)
  else if ¬mdres.old_restore then (dec.1, fixupf mdres a dec.2)
  else (dec.1, dec.2)

/-- One `restore_worker` loop body on a dequeued item, with the `pwrite`s
succeeding: the updated shared state and the positioned writes
`(offset, bytes)` it issues, in order; the error is stored into
`mdres->error` only if no earlier error is recorded there. -/
def restore_worker_item (uncomp : List Nat → Option (List Nat))
    (fixupf : mdrestore_struct → rst_item → List Nat → List Nat)
    (target_size : Nat) (scratch : List Nat)
    (mdres : mdrestore_struct) (a : rst_item) :
    mdrestore_struct × List (Nat × List Nat) :=
  let fixed := rwi_fixed fixupf mdres a (rwi_dec uncomp scratch mdres a)
  ({ mdres with
      error := if fixed.1 ≠ 0 ∧ mdres.error = 0 then fixed.1 else mdres.error },
   (a.start, fixed.2) ::
     (if a.start = BTRFS_SUPER_INFO_OFFSET then
        write_backup_supers target_size fixed.2
      else []))

/-- The single worker draining a cluster's queue in order. -/
def process_items (uncomp : List Nat → Option (List Nat))
    (fixupf : mdrestore_struct → rst_item → List Nat → List Nat)
    (target_size : Nat) (scratch : List Nat) :
    mdrestore_struct → List rst_item → mdrestore_struct × List (Nat × List Nat)
  | mdres, [] => (mdres, [])
  | mdres, a :: items =>
    let r := restore_worker_item uncomp fixupf target_size scratch mdres a
    let r2 := process_items uncomp fixupf target_size scratch r.1 items
    (r2.1, r.2 ++ r2.2)

/-- The descriptor-walking loop of `add_cluster` together with its payload
`fread`s: descriptor `i` names `(bytenr, size)` at offset `21 + 12 i` of the
cluster block; a zero-size or truncated payload is the C `fread != 1`
failure (`-EIO`); the super item runs `fill_mdres_info` at queue time. -/
def add_cluster_go (uncomp : List Nat → Option (List Nat)) (blk : List Nat) :
    Nat → Nat → mdrestore_struct → List Nat → Nat →
    Except Int (mdrestore_struct × List rst_item × List Nat × Nat)
  | 0, _, mdres, input, bytenr => .ok (mdres, [], input, bytenr)
  | n + 1, i, mdres, input, bytenr =>
    let istart := readU64le blk (21 + 12 * i)
    let isize := readU32le blk (21 + 12 * i + 8)
    if isize = 0 ∨ input.length < isize then .error (- EIO)
    else
      let a : rst_item := ⟨istart, input.take isize⟩
      match (if istart = BTRFS_SUPER_INFO_OFFSET then
               fill_mdres_info uncomp mdres a
             else .ok mdres) with
      | .error e => .error e
      | .ok mdres1 =>
        match add_cluster_go uncomp blk n (i + 1) mdres1 (input.drop isize)
            (bytenr + isize) with
        | .error e => .error e
        | .ok (mdres2, items, input2, bytenr2) =>
          .ok (mdres2, a :: items, input2, bytenr2)

/-- `add_cluster(cluster, mdres, &next)`: record the cluster's compression
method, queue the `nritems` payloads, then skip the padding up to the next
`BLOCK_SIZE` boundary (a truncated pad is again `-EIO`).  Returns the updated
state, the queued items, the rest of the stream, and `*next`. -/
def add_cluster (uncomp : List Nat → Option (List Nat)) (blk : List Nat)
    (mdres : mdrestore_struct) (input : List Nat) :
    Except Int (mdrestore_struct × List rst_item × List Nat × Nat) :=
  match add_cluster_go uncomp blk (readU32le blk 16) 0
      { mdres with compress_method := readU8 blk 20 } input
      (readU64le blk 8 + BLOCK_SIZE) with
  | .error e => .error e
  | .ok (mdres1, items, input1, bytenr1) =>
    if bytenr1 % BLOCK_SIZE ≠ 0 then
      if input1.length < BLOCK_SIZE - bytenr1 % BLOCK_SIZE then .error (- EIO)
      else .ok (mdres1, items, input1.drop (BLOCK_SIZE - bytenr1 % BLOCK_SIZE),
        bytenr1 + (BLOCK_SIZE - bytenr1 % BLOCK_SIZE))
    else .ok (mdres1, items, input1, bytenr1)

/-- The `while (1)` loop of `restore_metadump`: read a `BLOCK_SIZE` header
block (a short read ends the restore with 0), check magic and bytenr (a
mismatch is `-EIO`, nothing further is read or dispatched), `add_cluster`,
then `wait_for_worker` - which spins forever if items are queued while
`leafsize` is still 0 (no super block seen; modelled as `none`), and
otherwise reports the first worker error, ending the loop.  Returns the exit
status and every positioned write issued, in order. -/
def restore_loop (uncomp : List Nat → Option (List Nat))
    (fixupf : mdrestore_struct → rst_item → List Nat → List Nat)
    (target_size : Nat) (scratch : List Nat) :
    Nat → mdrestore_struct → List Nat → Nat → List (Nat × List Nat) →
    Option (Int × List (Nat × List Nat))
  | 0, _, _, _, _ => none
  | fuel + 1, mdres, input, bytenr, writes =>
    if input.length < BLOCK_SIZE then some (0, writes)
    else if ¬(readU64le (input.take BLOCK_SIZE) 0 = HEADER_MAGIC ∧
        readU64le (input.take BLOCK_SIZE) 8 = bytenr) then
      some (- EIO, writes)
    else
      match add_cluster uncomp (input.take BLOCK_SIZE) mdres
          (input.drop BLOCK_SIZE) with
      | .error e => some (e, writes)
      | .ok (mdres1, items, input1, next) =>
        if mdres1.leafsize = 0 ∧ items ≠ [] then none
        else
          let pr := process_items uncomp fixupf target_size scratch mdres1 items
          if pr.1.error ≠ 0 then some (pr.1.error, writes ++ pr.2)
          else restore_loop uncomp fixupf target_size scratch fuel pr.1 input1
            next (writes ++ pr.2)

/-- `restore_metadump(input, out, old_restore, 1)`: each iteration consumes at
least `BLOCK_SIZE` bytes of the stream, so the fuel never runs out before the
stream does. -/
def restore_metadump (uncomp : List Nat → Option (List Nat))
    (fixupf : mdrestore_struct → rst_item → List Nat → List Nat)
    (target_size : Nat) (scratch : List Nat) (old_restore : Bool)
    (input : List Nat) : Option (Int × List (Nat × List Nat)) :=
  restore_loop uncomp fixupf target_size scratch (input.length / BLOCK_SIZE + 1)
    (mdrestore_init_state old_restore) input 0 []

/-! ## Lemmas -/

theorem natToLE_length (k v : Nat) : (natToLE k v).length = k := by
  induction k generalizing v with
  | zero => rfl
  | succ k ih => simp [natToLE, ih]

theorem bytesToNatLE_natToLE (k v : Nat) : bytesToNatLE (natToLE k v) = v % 256 ^ k := by
  induction k generalizing v with
  | zero => simp [natToLE, bytesToNatLE, Nat.mod_one]
  | succ k ih =>
      simp only [natToLE, bytesToNatLE, ih]
      rw [pow_succ', Nat.mod_mul]

theorem listWrite_length (l bs : List Nat) (off : Nat) :
    (listWrite l off bs).length = l.length := by
  simp only [listWrite, List.length_take, List.length_append, List.length_drop]
  omega

theorem listMemset_length (l : List Nat) (off n : Nat) :
    (listMemset l off n).length = l.length := listWrite_length ..

theorem listFill_length (l : List Nat) (off n v : Nat) :
    (listFill l off n v).length = l.length := listWrite_length ..

theorem slice_length (l : List Nat) (off n : Nat) :
    (slice l off n).length = min n (l.length - off) := by
  simp [slice]

theorem getElem?_slice (l : List Nat) (off n i : Nat) :
    (slice l off n)[i]? = if i < n then l[off + i]? else none := by
  simp [slice, List.getElem?_take, List.getElem?_drop]

theorem getElem?_listWrite (l bs : List Nat) (off i : Nat) :
    (listWrite l off bs)[i]? =
      if i < l.length then
        (if off ≤ i ∧ i < off + bs.length then bs[i - off]? else l[i]?)
      else none := by
  unfold listWrite
  rw [List.getElem?_take]
  by_cases hk : i < l.length
  · simp only [hk, if_true]
    rw [List.append_assoc, List.getElem?_append]
    by_cases h1 : i < (l.take off).length
    · have hio : i < off := by
        simp only [List.length_take] at h1; omega
      rw [if_pos h1, List.getElem?_take, if_pos hio,
        if_neg (by omega : ¬(off ≤ i ∧ i < off + bs.length))]
    · have hlo : off ≤ l.length := by
        simp only [List.length_take] at h1; omega
      have hoff : (l.take off).length = off := by
        simp only [List.length_take]; omega
      rw [if_neg h1, List.getElem?_append, hoff]
      by_cases h2 : i - off < bs.length
      · rw [if_pos h2, if_pos (by omega)]
      · rw [if_neg h2, List.getElem?_drop, if_neg (by omega)]
        congr 1
        omega
  · simp [hk]

theorem getD_listWrite (l bs : List Nat) (off i : Nat) :
    (listWrite l off bs).getD i 0 =
      if off ≤ i ∧ i < off + bs.length ∧ i < l.length then bs.getD (i - off) 0
      else l.getD i 0 := by
  rw [List.getD_eq_getElem?_getD, getElem?_listWrite]
  by_cases hk : i < l.length
  · rw [if_pos hk]
    by_cases h1 : off ≤ i ∧ i < off + bs.length
    · rw [if_pos h1, if_pos ⟨h1.1, h1.2, hk⟩, List.getD_eq_getElem?_getD]
    · rw [if_neg h1, if_neg (fun hc => h1 ⟨hc.1, hc.2.1⟩), List.getD_eq_getElem?_getD]
  · rw [if_neg hk, if_neg (fun hc => hk hc.2.2), List.getD_eq_getElem?_getD,
      List.getElem?_eq_none (by omega)]

theorem slice_listWrite_of_le (l bs : List Nat) (off1 off2 n : Nat) (h : off2 + n ≤ off1) :
    slice (listWrite l off1 bs) off2 n = slice l off2 n := by
  apply List.ext_getElem?
  intro i
  rw [getElem?_slice, getElem?_slice]
  by_cases hi : i < n
  · rw [if_pos hi, if_pos hi, getElem?_listWrite,
      if_neg (by omega : ¬(off1 ≤ off2 + i ∧ off2 + i < off1 + bs.length))]
    by_cases hk : off2 + i < l.length
    · rw [if_pos hk]
    · rw [if_neg hk, List.getElem?_eq_none (by omega)]
  · rw [if_neg hi, if_neg hi]

theorem slice_listWrite_of_ge (l bs : List Nat) (off1 off2 n : Nat)
    (h : off1 + bs.length ≤ off2) :
    slice (listWrite l off1 bs) off2 n = slice l off2 n := by
  apply List.ext_getElem?
  intro i
  rw [getElem?_slice, getElem?_slice]
  by_cases hi : i < n
  · rw [if_pos hi, if_pos hi, getElem?_listWrite,
      if_neg (by omega : ¬(off1 ≤ off2 + i ∧ off2 + i < off1 + bs.length))]
    by_cases hk : off2 + i < l.length
    · rw [if_pos hk]
    · rw [if_neg hk, List.getElem?_eq_none (by omega)]
  · rw [if_neg hi, if_neg hi]

theorem slice_listWrite_self (l bs : List Nat) (off : Nat) (h : off + bs.length ≤ l.length) :
    slice (listWrite l off bs) off bs.length = bs := by
  apply List.ext_getElem?
  intro i
  rw [getElem?_slice]
  by_cases hi : i < bs.length
  · rw [if_pos hi, getElem?_listWrite, if_pos (by omega), if_pos (by omega)]
    congr 1
    omega
  · rw [if_neg hi, eq_comm, List.getElem?_eq_none (by omega)]

theorem slice_append_right (A B : List Nat) (off n : Nat) (h : A.length ≤ off) :
    slice (A ++ B) off n = slice B (off - A.length) n := by
  apply List.ext_getElem?
  intro i
  rw [getElem?_slice, getElem?_slice]
  by_cases hi : i < n
  · rw [if_pos hi, if_pos hi, List.getElem?_append_right (by omega)]
    congr 1
    omega
  · rw [if_neg hi, if_neg hi]

theorem slice_append_left (A B : List Nat) (off n : Nat) (h : off + n ≤ A.length) :
    slice (A ++ B) off n = slice A off n := by
  apply List.ext_getElem?
  intro i
  rw [getElem?_slice, getElem?_slice]
  by_cases hi : i < n
  · rw [if_pos hi, if_pos hi, List.getElem?_append, if_pos (by omega)]
  · rw [if_neg hi, if_neg hi]

theorem slice_zero_left (l : List Nat) (n : Nat) : slice l 0 n = l.take n := by
  simp [slice]

theorem slice_add (l : List Nat) (a b n : Nat) :
    slice l (a + b) n = slice (l.drop a) b n := by
  simp [slice, List.drop_drop, Nat.add_comm]

theorem slice_drop0 (l : List Nat) (a n : Nat) :
    slice l a n = slice (l.drop a) 0 n := by
  simp [slice]

theorem take_append_cancel (A Z : List Nat) (n : Nat) :
    (A ++ Z).take (A.length + n) = A ++ Z.take n := by
  rw [List.take_append_eq_append_take, List.take_of_length_le (by omega),
    Nat.add_sub_cancel_left]

theorem listWrite_append_right (A B bs : List Nat) (off : Nat) (h : A.length ≤ off) :
    listWrite (A ++ B) off bs = A ++ listWrite B (off - A.length) bs := by
  have t1 : (A ++ B).take off = A ++ B.take (off - A.length) := by
    rw [List.take_append_eq_append_take, List.take_of_length_le h]
  have t2 : (A ++ B).drop (off + bs.length) = B.drop (off - A.length + bs.length) := by
    rw [List.drop_append_eq_append_drop, List.drop_eq_nil_of_le (by omega),
      List.nil_append,
      show off + bs.length - A.length = off - A.length + bs.length from by omega]
  unfold listWrite
  rw [t1, t2, List.length_append]
  conv_lhs => rw [List.append_assoc, List.append_assoc]
  conv_lhs => rw [take_append_cancel]
  conv_rhs => rw [List.append_assoc]

theorem listWrite_append_left (A B bs : List Nat) (off : Nat)
    (h : off + bs.length ≤ A.length) :
    listWrite (A ++ B) off bs = listWrite A off bs ++ B := by
  have t1 : (A ++ B).take off = A.take off := by
    rw [List.take_append_eq_append_take, show off - A.length = 0 from by omega,
      List.take_zero, List.append_nil]
  have t2 : (A ++ B).drop (off + bs.length) = A.drop (off + bs.length) ++ B := by
    rw [List.drop_append_eq_append_drop,
      show off + bs.length - A.length = 0 from by omega, List.drop_zero]
  have hX : ((A.take off ++ bs) ++ A.drop (off + bs.length)).length = A.length := by
    simp only [List.length_append, List.length_take, List.length_drop]
    omega
  unfold listWrite
  rw [t1, t2, List.length_append, ← List.append_assoc, ← hX,
    take_append_cancel, List.take_length, List.take_length]

theorem listWrite_prefix (B bs : List Nat) (h : bs.length ≤ B.length) :
    listWrite B 0 bs = bs ++ B.drop bs.length := by
  unfold listWrite
  rw [List.take_zero, List.nil_append, Nat.zero_add]
  refine List.take_of_length_le ?_
  simp only [List.length_append, List.length_drop]
  omega

theorem readLE_append_right (A B : List Nat) (off k : Nat) (h : A.length ≤ off) :
    readLE (A ++ B) off k = readLE B (off - A.length) k := by
  rw [readLE, readLE, slice_append_right _ _ _ _ h]

theorem readLE_append_left (A B : List Nat) (off k : Nat) (h : off + k ≤ A.length) :
    readLE (A ++ B) off k = readLE A off k := by
  rw [readLE, readLE, slice_append_left _ _ _ _ h]

theorem readLE_prefix_exact (B : List Nat) (k v : Nat) :
    readLE (natToLE k v ++ B) 0 k = v % 256 ^ k := by
  rw [readLE, slice_zero_left, List.take_left' (natToLE_length k v), bytesToNatLE_natToLE]

theorem u16le_length (v : Nat) : (u16le v).length = 2 := natToLE_length ..
theorem u32le_length (v : Nat) : (u32le v).length = 4 := natToLE_length ..
theorem u64le_length (v : Nat) : (u64le v).length = 8 := natToLE_length ..

theorem slice_take_all (l : List Nat) (h : l.length ≤ n) : slice l 0 n = l := by
  simp [slice, List.take_of_length_le h]

theorem readLE_append_exact (A B : List Nat) (k v : Nat) :
    readLE (A ++ (natToLE k v ++ B)) A.length k = v % 256 ^ k := by
  rw [readLE, slice_append_right _ _ _ _ le_rfl, Nat.sub_self, slice_zero_left,
    List.take_left' (natToLE_length k v), bytesToNatLE_natToLE]

theorem readLE_listWrite_exact (l : List Nat) (off k v : Nat)
    (h : off + k ≤ l.length) :
    readLE (listWrite l off (natToLE k v)) off k = v % 256 ^ k := by
  have key : ∀ bs : List Nat, bs.length = k →
      bytesToNatLE (slice (listWrite l off bs) off k) = bytesToNatLE bs := by
    intro bs hbs
    rw [← hbs, slice_listWrite_self l bs off (by rw [hbs]; exact h)]
  rw [readLE, key (natToLE k v) (natToLE_length k v), bytesToNatLE_natToLE]

theorem readLE_listWrite_of_le (l bs : List Nat) (off1 off2 k : Nat) (h : off2 + k ≤ off1) :
    readLE (listWrite l off1 bs) off2 k = readLE l off2 k := by
  rw [readLE, readLE, slice_listWrite_of_le _ _ _ _ _ h]

theorem readLE_listWrite_of_ge (l bs : List Nat) (off1 off2 k : Nat)
    (h : off1 + bs.length ≤ off2) :
    readLE (listWrite l off1 bs) off2 k = readLE l off2 k := by
  rw [readLE, readLE, slice_listWrite_of_ge _ _ _ _ _ h]

theorem bytesToNatLE_lt (l : List Nat) (h : ∀ b ∈ l, b < 256) :
    bytesToNatLE l < 256 ^ l.length := by
  induction l with
  | nil => simp [bytesToNatLE]
  | cons b bs ih =>
      have hb : b < 256 := h b (by simp)
      have := ih (fun x hx => h x (by simp [hx]))
      simp only [bytesToNatLE, List.length_cons, pow_succ']
      omega

theorem readLE_lt (l : List Nat) (off k : Nat) (h : ∀ b ∈ l, b < 256) :
    readLE l off k < 256 ^ k := by
  have hmem : ∀ b ∈ slice l off k, b < 256 := by
    intro b hb
    simp only [slice] at hb
    exact h b (List.mem_of_mem_drop (List.mem_of_mem_take hb))
  have hlen := slice_length l off k
  calc readLE l off k < 256 ^ (slice l off k).length := bytesToNatLE_lt _ hmem
    _ ≤ 256 ^ k := Nat.pow_le_pow_right (by omega) (by omega)

/-! ## Claim C2 - the pending-size cap

The claim that `pending_size` can never exceed `MAX_PENDING_SIZE`, even when a
single added extent is larger than 256 KiB, is false: `add_extent` flushes
first and then does `md->pending_size += size` unconditionally, so one
oversized extent becomes a pending run of exactly its own size. -/

/-- C2 counterexample: a single 512 KiB `add_extent` (the size of a large
free-space-cache data extent) leaves `pending_size = 512 KiB`, which exceeds
`MAX_PENDING_SIZE = 256 KiB` - refuting the claim that the cap holds even for
a single extent larger than 256 KiB. -/
theorem c2_counterexample :
    MAX_PENDING_SIZE <
      (run_adds metadump_init_state [(0, 512 * 1024, 1)]).1.pending_size := by decide

theorem add_extent_pending_le (md : metadump_struct) (s sz d : Nat)
    (hsz : sz ≤ MAX_PENDING_SIZE) :
    (add_extent md s sz d).1.pending_size ≤ MAX_PENDING_SIZE := by
  unfold add_extent flush_pending
  split
  · split
    · simp only
      rw [Nat.zero_add, Nat.mod_eq_of_lt (by simp [MAX_PENDING_SIZE, U64MOD] at hsz ⊢; omega)]
      exact hsz
    · simp only
      have h0 : md.pending_size = 0 := by omega
      rw [h0, Nat.zero_add, Nat.mod_eq_of_lt (by simp [MAX_PENDING_SIZE, U64MOD] at hsz ⊢; omega)]
      exact hsz
  · next hcond =>
      push_neg at hcond
      exact hcond.2.1

theorem run_adds_pending_le (ops : List (Nat × Nat × Nat)) (md : metadump_struct)
    (hmd : md.pending_size ≤ MAX_PENDING_SIZE)
    (h : ∀ op ∈ ops, op.2.1 ≤ MAX_PENDING_SIZE) :
    (run_adds md ops).1.pending_size ≤ MAX_PENDING_SIZE := by
  induction ops generalizing md with
  | nil => exact hmd
  | cons op ops ih =>
      obtain ⟨s, sz, d⟩ := op
      simp only [run_adds]
      exact ih (add_extent md s sz d).1
        (add_extent_pending_le md s sz d (h (s, sz, d) (by simp)))
        (fun op hop => h op (by simp [hop]))

/-- C2 amended: provided every single added extent is itself at most
`MAX_PENDING_SIZE` bytes, no sequence of `add_extent` calls ever drives
`pending_size` above `MAX_PENDING_SIZE`; a single larger extent, however,
becomes a pending run of its own full size (see the counterexample). -/
theorem c2_pending_size_bound (ops : List (Nat × Nat × Nat))
    (h : ∀ op ∈ ops, op.2.1 ≤ MAX_PENDING_SIZE) :
    (run_adds metadump_init_state ops).1.pending_size ≤ MAX_PENDING_SIZE :=
  run_adds_pending_le ops metadump_init_state (by decide) h

/-- Witness for C2: a concrete bounded sequence. -/
theorem c2_witness :
    (∀ op ∈ [((65536 : Nat), (4096 : Nat), (0 : Nat)), (69632, 4096, 0)],
        op.2.1 ≤ MAX_PENDING_SIZE) ∧
    (run_adds metadump_init_state
        [(65536, 4096, 0), (69632, 4096, 0)]).1.pending_size ≤ MAX_PENDING_SIZE :=
  ⟨by decide, c2_pending_size_bound _ (by decide)⟩

/-! ## Claim C6 - the exact flush condition of `add_extent` -/

/-- C6: `add_extent(start, size, kind)` flushes the pending run and starts a
new run at `start` exactly when the kind differs, or `pending_size + size`
exceeds `MAX_PENDING_SIZE`, or `pending_start + pending_size ≠ start`;
otherwise it only appends `size` bytes.  The two overflow-freedom hypotheses
let the claim's plain sums stand for the C `u64` sums. -/
theorem c6_add_extent_flush_condition (md : metadump_struct) (start size data : Nat)
    (h1 : md.pending_start + md.pending_size < U64MOD)
    (h2 : md.pending_size + size < U64MOD) :
    (md.data ≠ data ∨ MAX_PENDING_SIZE < md.pending_size + size ∨
        md.pending_start + md.pending_size ≠ start →
      add_extent md start size data =
        (⟨start, size, data⟩,
         if md.pending_size ≠ 0 then [(md.pending_start, md.pending_size, md.data)]
         else [])) ∧
    (¬(md.data ≠ data ∨ MAX_PENDING_SIZE < md.pending_size + size ∨
        md.pending_start + md.pending_size ≠ start) →
      add_extent md start size data =
        ({ md with pending_size := md.pending_size + size, data := data }, [])) := by
  obtain ⟨ps, psz, pd⟩ := md
  simp only [add_extent, flush_pending] at h1 h2 ⊢
  have hsz : size < U64MOD := by omega
  rw [Nat.mod_eq_of_lt h1, Nat.mod_eq_of_lt h2]
  constructor
  · intro hcond
    rw [if_pos hcond]
    by_cases h0 : psz ≠ 0
    · simp only [if_pos h0]
      rw [Nat.zero_add, Nat.mod_eq_of_lt hsz]
    · simp only [if_neg h0]
      push_neg at h0
      simp only [h0, Nat.zero_add, Nat.mod_eq_of_lt hsz]
  · intro hcond
    rw [if_neg hcond]

/-- Witness for C6: the spec's scenario 3 - a pending metadata run at
`0x10000` of size `0x4000` and a non-adjacent next block at `0x20000` flushes
the run and starts a new one. -/
theorem c6_witness :
    add_extent ⟨0x10000, 0x4000, 0⟩ 0x20000 0x4000 0 =
      (⟨0x20000, 0x4000, 0⟩, [(0x10000, 0x4000, 0)]) := by
  have h := (c6_add_extent_flush_condition ⟨0x10000, 0x4000, 0⟩ 0x20000 0x4000 0
    (by decide) (by decide)).1 (by decide)
  simpa using h

/-! ## Claim C4 - compression failure on dump

`dump_worker` flags the failed item (`async->error = 1`), but `struct
metadump_struct` has no shared error field, `write_buffers` (and hence
`flush_pending` and `create_metadump`) never reads `async->error`, and so the
driver's exit status is unaffected by a codec failure. -/

/-- C4 counterexample: with a failing codec, the processed item does carry
`error = 1`, yet `write_buffers` - the only place the dump driver collects an
error from the worker pipeline - still returns 0 (success), refuting "the
dump engine's shared error state is set, and the driver reports failure". -/
theorem c4_counterexample :
    (dump_worker_item (fun _ => none) 6 ⟨BTRFS_SUPER_INFO_OFFSET, 3, [1, 2, 3], 3, 0⟩).error
        = 1 ∧
    (write_buffers 0 COMPRESS_ZLIB
        [dump_worker_item (fun _ => none) 6 ⟨BTRFS_SUPER_INFO_OFFSET, 3, [1, 2, 3], 3, 0⟩]).1
        = 0 := by
  constructor
  · rfl
  · rfl

/-- C4 amended: when zlib compression of a work item fails, the item is
flagged with `error = 1`, but the dump engine has no shared error state and
the flag is never examined again: `write_buffers` produces exactly the same
result whether or not the items carry error flags (and, `fwrite` succeeding,
returns 0). -/
theorem c4_dump_error_flag_ignored (comp : List Nat → Option (List Nat)) (lvl : Nat)
    (a : dump_async) (hlvl : 0 < lvl) (hfail : comp a.buffer = none) :
    (dump_worker_item comp lvl a).error = 1 ∧
    ∀ (bytenr cflag : Nat) (items : List dump_async),
      write_buffers bytenr cflag (items.map clear_error) =
        write_buffers bytenr cflag items := by
  constructor
  · simp [dump_worker_item, hlvl, hfail]
  · intro bytenr cflag items
    have hmap1 : ∀ f : dump_async → List Nat,
        (∀ x : dump_async, f (clear_error x) = f x) →
        (items.map clear_error).map f = items.map f := by
      intro f hf
      rw [List.map_map]
      exact List.map_congr_left (fun x _ => hf x)
    have hmap2 : (items.map clear_error).map (fun a => a.bufsize) =
        items.map (fun a => a.bufsize) := by
      rw [List.map_map]
      exact List.map_congr_left (fun x _ => rfl)
    have e1 := hmap1 (fun a => u64le a.start ++ u32le a.bufsize) (fun x => rfl)
    have e2 := hmap1 (fun a => a.buffer.take a.bufsize) (fun x => rfl)
    have e3 : (items.map clear_error).isEmpty = items.isEmpty := by
      cases items <;> rfl
    simp only [write_buffers, cluster_block_of, List.length_map, e1, e2, hmap2, e3]

/-- Witness for C4. -/
theorem c4_witness :
    (dump_worker_item (fun _ => none) 6 ⟨1, 2, [5, 6], 2, 0⟩).error = 1 ∧
    ∀ (bytenr cflag : Nat) (items : List dump_async),
      write_buffers bytenr cflag (items.map clear_error) =
        write_buffers bytenr cflag items :=
  c4_dump_error_flag_ignored (fun _ => none) 6 ⟨1, 2, [5, 6], 2, 0⟩ (by decide) rfl

/-! ## Claim C7 - the restore worker count

`main` validates `-t` (1-32) but calls `restore_metadump(source, out,
old_restore, 1)`: the restore pool always has exactly one worker thread. -/

/-- C7 counterexample: `-r -t 4` parses successfully (4 is in 1..32), but the
restore invocation passes thread count 1, not 4 - refuting the claim that the
restore pool is created with the `-t` value. -/
theorem c7_counterexample :
    parse_opts [CliOpt.rflag, CliOpt.tflag 4] =
        Except.ok ⟨4, 0, false, false⟩ ∧
    main_invocation 8 ⟨4, 0, false, false⟩ = Invocation.restore false 1 ∧
    (1 : Int) ≠ 4 := by
  refine ⟨rfl, rfl, by decide⟩

/-- C7 amended: in restore mode the worker pool is always created with exactly
one worker thread, whatever `-t` (and the CPU count) say. -/
theorem c7_restore_single_thread (ncpus : Int) (o : MainOpts) (h : o.create = false) :
    main_invocation ncpus o = Invocation.restore o.old_restore 1 := by
  simp [main_invocation, h]

/-- Witness for C7. -/
theorem c7_witness :
    main_invocation 8 ⟨4, 0, false, false⟩ = Invocation.restore false 1 :=
  c7_restore_single_thread 8 ⟨4, 0, false, false⟩ rfl

/-! ## Claim C8 - the '/' exclusion in the brute-force search

The carry branch of the search skips `'/'` (47) when it increments a higher
position, but the fast path `buf[i]++` for position 0 has no such skip, so
candidates with `'/'` in the first position are evaluated. -/

/-- C8 counterexample: with `length = 1`, the 16th evaluated candidate is the
one-byte string `"/"` (byte 47) - the CRC comparison does run on a candidate
containing `'/'`, refuting the claim. -/
theorem c8_counterexample :
    [47] ∈ crc_search 1 16 (List.replicate 1 32) 0 ∧ (47 : Nat) ∈ [47] := by
  constructor
  · decide
  · decide

theorem crc_scan_lt (buf : List Nat) (length i : Nat) : i < crc_scan buf length i := by
  unfold crc_scan
  split
  · omega
  · split
    · have := crc_scan_lt buf length (i + 1)
      omega
    · omega
  termination_by length - i
  decreasing_by simp_wf; omega

/-- After a carry advance (write a non-47 byte at `j`, refill `[0, j)` with
spaces), no position except possibly 0 holds 47, provided none did before. -/
theorem carry_preserves (buf : List Nat) (j b m : Nat) (hb : b ≠ 47)
    (hbuf : buf.getD m 0 ≠ 47) :
    (listFill (listWrite buf j [b]) 0 j 32).getD m 0 ≠ 47 := by
  rw [listFill, getD_listWrite]
  split
  · next hcase =>
      have hmj : m - 0 < j := by
        have := hcase.2.1
        simpa using this
      rw [List.getD_eq_getElem?_getD, List.getElem?_replicate, if_pos hmj]
      decide
  · rw [getD_listWrite]
    split
    · next hcase =>
        have hmj : m = j := by
          have h1 := hcase.1
          have h2 := hcase.2.1
          simp only [List.length_cons, List.length_nil] at h2
          omega
        rw [hmj, Nat.sub_self, List.getD_cons_zero]
        exact hb
    · exact hbuf

/-- The positions `≥ 1` of the buffer never hold 47, and the C `i` variable is
0 whenever an iteration starts. -/
theorem crc_search_invariant (length : Nat) (fuel : Nat) (buf : List Nat)
    (hbuf : ∀ k, 1 ≤ k → buf.getD k 0 ≠ 47) :
    ∀ c ∈ crc_search length fuel buf 0, ∀ k, 1 ≤ k → c.getD k 0 ≠ 47 := by
  induction fuel generalizing buf with
  | zero => intro c hc; simp [crc_search] at hc
  | succ fuel ih =>
      intro c hc k hk
      simp only [crc_search, List.mem_cons] at hc
      rcases hc with rfl | hc
      · exact hbuf k hk
      · rcases hstep : crc_step length buf 0 with _ | ⟨buf2, i2⟩
        · rw [hstep] at hc; simp at hc
        · rw [hstep] at hc
          unfold crc_step at hstep
          by_cases h127 : buf.getD 0 0 = 127
          · rw [if_pos h127] at hstep
            by_cases hbrk : length < crc_scan buf length 0
            · rw [if_pos hbrk] at hstep; exact absurd hstep (by simp)
            · rw [if_neg hbrk] at hstep
              simp only [Option.some.injEq, Prod.mk.injEq] at hstep
              obtain ⟨hbuf2, hi2⟩ := hstep
              rw [← hi2] at hc
              refine ih buf2 ?_ c hc k hk
              intro m hm
              rw [← hbuf2]
              refine carry_preserves buf _ _ m ?_ (hbuf m hm)
              split
              · omega
              · next hne => exact hne
          · rw [if_neg h127] at hstep
            simp only [Option.some.injEq, Prod.mk.injEq] at hstep
            obtain ⟨hbuf2, hi2⟩ := hstep
            rw [← hi2] at hc
            refine ih buf2 ?_ c hc k hk
            intro m hm
            rw [← hbuf2, getD_listWrite]
            split
            · next hcase =>
                have h2 := hcase.2.1
                simp only [List.length_cons, List.length_nil] at h2
                omega
            · exact hbuf m hm

/-- C8 amended: no evaluated candidate ever holds `'/'` (47) at any position
other than the first; position 0, incremented by the fast path without the
skip, does pass through `'/'` (see the counterexample). -/
theorem c8_no_slash_after_first (length fuel : Nat) (c : List Nat)
    (hc : c ∈ crc_search length fuel (List.replicate length 32) 0)
    (k : Nat) (hk : 1 ≤ k) : c.getD k 0 ≠ 47 := by
  refine crc_search_invariant length fuel (List.replicate length 32) ?_ c hc k hk
  intro m hm
  rw [List.getD_eq_getElem?_getD]
  by_cases hmem : m < length
  · simp [List.getElem?_replicate, hmem]
  · rw [List.getElem?_eq_none (by simp; omega)]
    simp

/-- Witness for C8. -/
theorem c8_witness : ([32, 32] : List Nat).getD 1 0 ≠ 47 :=
  c8_no_slash_after_first 2 1 [32, 32] (by decide) 1 (by decide)

/-! ## Claim C3 - the masked-block invariant

`copy_buffer` copies the whole source block and then only zeroes regions at
offsets `≥ 101` before recomputing the CRC; `csum_block` overwrites only
bytes `[0, 4)`.  So bytes `[4, 32)` of a masked block are the source block's
own bytes `[4, 32)` - they are *not* zeroed, contrary to the claim's
"regardless of the contents of the source block's 32-byte checksum field". -/

theorem slice_listMemset_of_le (l : List Nat) (off1 n1 off2 n2 : Nat)
    (h : off2 + n2 ≤ off1) :
    slice (listMemset l off1 n1) off2 n2 = slice l off2 n2 :=
  slice_listWrite_of_le _ _ _ _ _ h

theorem zero_items_go_length (src : List Nat) (n : Nat) :
    ∀ (dst : List Nat) (i : Nat), (zero_items_go src dst i n).length = dst.length := by
  induction n with
  | zero => intro dst i; rfl
  | succ n ih =>
      intro dst i
      simp only [zero_items_go]
      rw [ih]
      split
      · exact listMemset_length ..
      · split
        · rfl
        · split
          · rfl
          · exact listMemset_length ..

theorem zero_items_go_slice_low (src : List Nat) (n : Nat) :
    ∀ (dst : List Nat) (i off m : Nat), off + m ≤ 101 →
      slice (zero_items_go src dst i n) off m = slice dst off m := by
  induction n with
  | zero => intro dst i off m _; rfl
  | succ n ih =>
      intro dst i off m h
      simp only [zero_items_go]
      rw [ih _ _ _ _ h]
      split
      · exact slice_listMemset_of_le _ _ _ _ _ (by simp only [btrfs_leaf_data]; omega)
      · split
        · rfl
        · split
          · rfl
          · exact slice_listMemset_of_le _ _ _ _ _ (by simp only [btrfs_leaf_data]; omega)

/-- C3 counterexample: a non-super block whose source byte 4 is 7 (inside the
32-byte checksum field) keeps that byte after masking, refuting "bytes
`[4,32)` of the block are zero regardless of the source's checksum field". -/
theorem c3_counterexample :
    (copy_buffer ⟨0, 104, [0, 0, 0, 0, 7] ++ List.replicate 99 0⟩).getD 4 0 = 7 ∧
    (7 : Nat) ≠ 0 := by
  constructor
  · decide
  · decide

/-- C3 amended: for every non-super metadata block, after masking, bytes
`[0,4)` hold the finalised CRC32C computed over the masked bytes `[32,len)`,
and bytes `[4,32)` are copied unchanged from the source block (hence they are
zero exactly when the source's are, not unconditionally). -/
theorem c3_masked_block_csum (src : extent_buffer)
    (hlen : src.data.length = src.len) (hmin : 101 ≤ src.len)
    (hsuper : src.start ≠ BTRFS_SUPER_INFO_OFFSET) :
    slice (copy_buffer src) 4 28 = slice src.data 4 28 ∧
    slice (copy_buffer src) 0 4 =
      btrfs_csum_final (crc32c 0xFFFFFFFF
        (slice (copy_buffer src) BTRFS_CSUM_SIZE (src.len - BTRFS_CSUM_SIZE))) := by
  have hdst : src.data.take src.len = src.data := by
    rw [← hlen]
    exact List.take_length src.data
  -- the masked-but-unchecksummed buffer and its two key properties
  obtain ⟨dst2, hcb, hlen2, hslice⟩ :
      ∃ dst2, copy_buffer src = csum_block dst2 src.len ∧ dst2.length = src.len ∧
        slice dst2 4 28 = slice src.data 4 28 := by
    unfold copy_buffer
    rw [if_neg hsuper, hdst]
    dsimp only
    by_cases h0 : btrfs_header_nritems src.data = 0
    · refine ⟨_, by rw [if_pos h0], ?_, ?_⟩
      · rw [listMemset_length, hlen]
      · exact slice_listMemset_of_le _ _ _ _ _ (by omega)
    · by_cases hl : btrfs_header_level src.data = 0
      · refine ⟨_, by rw [if_neg h0, if_pos hl], ?_, ?_⟩
        · rw [zero_items, zero_items_go_length, listMemset_length, hlen]
        · rw [zero_items, zero_items_go_slice_low _ _ _ _ _ _ (by omega)]
          exact slice_listMemset_of_le _ _ _ _ _
            (by simp only [btrfs_item_nr_offset]; omega)
      · refine ⟨_, by rw [if_neg h0, if_neg hl], ?_, ?_⟩
        · rw [listMemset_length, hlen]
        · exact slice_listMemset_of_le _ _ _ _ _ (by omega)
  rw [hcb]
  have hfin : (btrfs_csum_final
      (crc32c 0xFFFFFFFF (slice dst2 BTRFS_CSUM_SIZE (src.len - BTRFS_CSUM_SIZE)))).length
      = 4 := natToLE_length ..
  constructor
  · rw [csum_block, slice_listWrite_of_ge _ _ _ _ _ (by rw [hfin]), hslice]
  · rw [csum_block]
    have h1 : slice (listWrite dst2 0 (btrfs_csum_final
        (crc32c 0xFFFFFFFF (slice dst2 BTRFS_CSUM_SIZE (src.len - BTRFS_CSUM_SIZE)))))
        BTRFS_CSUM_SIZE (src.len - BTRFS_CSUM_SIZE) =
        slice dst2 BTRFS_CSUM_SIZE (src.len - BTRFS_CSUM_SIZE) := by
      refine slice_listWrite_of_ge _ _ _ _ _ ?_
      rw [hfin]
      simp [BTRFS_CSUM_SIZE]
    rw [h1]
    have h2 : slice (listWrite dst2 0 (btrfs_csum_final
        (crc32c 0xFFFFFFFF (slice dst2 BTRFS_CSUM_SIZE (src.len - BTRFS_CSUM_SIZE)))))
        0 4 = btrfs_csum_final
        (crc32c 0xFFFFFFFF (slice dst2 BTRFS_CSUM_SIZE (src.len - BTRFS_CSUM_SIZE))) := by
      have := slice_listWrite_self dst2 (btrfs_csum_final
        (crc32c 0xFFFFFFFF (slice dst2 BTRFS_CSUM_SIZE (src.len - BTRFS_CSUM_SIZE)))) 0
        (by rw [hfin, hlen2]; omega)
      rwa [hfin] at this
    rw [h2]

/-- Witness for C3: a 101-byte empty leaf. -/
theorem c3_witness :
    slice (copy_buffer ⟨4096, 101, List.replicate 101 1⟩) 4 28 =
      slice (List.replicate 101 1) 4 28 ∧
    slice (copy_buffer ⟨4096, 101, List.replicate 101 1⟩) 0 4 =
      btrfs_csum_final (crc32c 0xFFFFFFFF
        (slice (copy_buffer ⟨4096, 101, List.replicate 101 1⟩) BTRFS_CSUM_SIZE
          (101 - BTRFS_CSUM_SIZE))) :=
  c3_masked_block_csum ⟨4096, 101, List.replicate 101 1⟩ (by decide) (by decide) (by decide)

/-! ## Claim C1 - super-block fixup: METADUMP flag and CRC

`update_super_old` does set the `METADUMP` flag and recompute the CRC; but
`update_super` (the normal-mode fixup) never touches the flags field - it
only repacks the chunk array and recomputes the CRC.  The claim's "in both
modes" is therefore false. -/

theorem bytesToNatLE_eq_zero (l : List Nat) (h : ∀ b ∈ l, b = 0) : bytesToNatLE l = 0 := by
  induction l with
  | nil => rfl
  | cons b bs ih =>
      simp only [bytesToNatLE, h b (by simp), ih (fun x hx => h x (by simp [hx])),
        Nat.mul_zero, Nat.add_zero]

theorem readLE_replicate_zero (m off k : Nat) : readLE (List.replicate m 0) off k = 0 := by
  refine bytesToNatLE_eq_zero _ (fun b hb => ?_)
  simp only [slice] at hb
  exact List.eq_of_mem_replicate (List.mem_of_mem_drop (List.mem_of_mem_take hb))

theorem csum_block_length (b : List Nat) (len : Nat) :
    (csum_block b len).length = b.length := listWrite_length ..

/-- The two generic facts about `csum_block`: it leaves everything from byte
4 on unchanged, and afterwards bytes `[0,4)` are the finalised CRC of bytes
`[32, len)` of the result. -/
theorem csum_block_readLE (b : List Nat) (len off k : Nat) (h : 4 ≤ off) :
    readLE (csum_block b len) off k = readLE b off k := by
  refine readLE_listWrite_of_ge _ _ _ _ _ ?_
  simp only [btrfs_csum_final, u32le, natToLE_length]
  omega

theorem csum_block_spec (b : List Nat) (len : Nat) (h4 : 4 ≤ b.length) :
    slice (csum_block b len) 0 4 =
      btrfs_csum_final (crc32c 0xFFFFFFFF
        (slice (csum_block b len) BTRFS_CSUM_SIZE (len - BTRFS_CSUM_SIZE))) := by
  unfold csum_block
  have hfin : (btrfs_csum_final
      (crc32c 0xFFFFFFFF (slice b BTRFS_CSUM_SIZE (len - BTRFS_CSUM_SIZE)))).length = 4 :=
    natToLE_length ..
  have h1 : slice (listWrite b 0 (btrfs_csum_final
      (crc32c 0xFFFFFFFF (slice b BTRFS_CSUM_SIZE (len - BTRFS_CSUM_SIZE)))))
      BTRFS_CSUM_SIZE (len - BTRFS_CSUM_SIZE) =
      slice b BTRFS_CSUM_SIZE (len - BTRFS_CSUM_SIZE) := by
    refine slice_listWrite_of_ge _ _ _ _ _ ?_
    rw [hfin]
    simp [BTRFS_CSUM_SIZE]
  rw [h1]
  have := slice_listWrite_self b (btrfs_csum_final
    (crc32c 0xFFFFFFFF (slice b BTRFS_CSUM_SIZE (len - BTRFS_CSUM_SIZE)))) 0
    (by rw [hfin]; omega)
  rwa [hfin] at this

/-- `update_super_go` never writes below the chunk array (nor changes the
length), so the first 811 bytes of the buffer are preserved. -/
theorem update_super_go_low (a : Nat) (fuel : Nat) :
    ∀ (buf : List Nat) (cur ncur off n : Nat), off + n ≤ SYS_CHUNK_ARRAY_OFF →
      slice (update_super_go a fuel buf cur ncur).2.1 off n = slice buf off n := by
  induction fuel with
  | zero => intro buf cur ncur off n _; rfl
  | succ fuel ih =>
      intro buf cur ncur off n h
      simp only [update_super_go]
      split
      · split
        · rw [ih _ _ _ _ _ h]
          simp only [SYS_CHUNK_ARRAY_OFF] at h
          rw [slice_listWrite_of_le _ _ _ _ _ (by simp only [SYS_CHUNK_ARRAY_OFF]; omega),
            slice_listWrite_of_le _ _ _ _ _ (by simp only [SYS_CHUNK_ARRAY_OFF]; omega),
            slice_listWrite_of_le _ _ _ _ _ (by simp only [SYS_CHUNK_ARRAY_OFF]; omega),
            slice_listWrite_of_le _ _ _ _ _ (by simp only [SYS_CHUNK_ARRAY_OFF]; omega),
            slice_listWrite_of_le _ _ _ _ _ (by simp only [SYS_CHUNK_ARRAY_OFF]; omega),
            slice_listWrite_of_le _ _ _ _ _ (by simp only [SYS_CHUNK_ARRAY_OFF]; omega),
            slice_listWrite_of_le _ _ _ _ _ (by simp only [SYS_CHUNK_ARRAY_OFF]; omega),
            slice_listWrite_of_le _ _ _ _ _ (by simp only [SYS_CHUNK_ARRAY_OFF]; omega)]
        · simp only
          rw [slice_listWrite_of_le _ _ _ _ _ (by simp only [SYS_CHUNK_ARRAY_OFF] at h ⊢; omega)]
      · rfl

theorem update_super_go_length (a : Nat) (fuel : Nat) :
    ∀ (buf : List Nat) (cur ncur : Nat),
      (update_super_go a fuel buf cur ncur).2.1.length = buf.length := by
  induction fuel with
  | zero => intro buf cur ncur; rfl
  | succ fuel ih =>
      intro buf cur ncur
      simp only [update_super_go]
      split
      · split
        · rw [ih]
          simp only [listWrite_length]
        · simp only [listWrite_length]
      · rfl

/-- C1 counterexample: on an all-zero super buffer, `update_super` succeeds
(empty system-chunk array) and the restored flags field still has the
`METADUMP` bit clear - refuting "in both modes ... sets the METADUMP flag". -/
theorem update_super_go_stop (a fuel : Nat) (buf : List Nat) (cur ncur : Nat)
    (h : ¬cur < a) :
    update_super_go a (fuel + 1) buf cur ncur = (0, buf, ncur) := by
  rw [update_super_go, if_neg h]

theorem c1_counterexample :
    (update_super (List.replicate 4096 0)).1 = 0 ∧
    (btrfs_super_flags (update_super (List.replicate 4096 0)).2).testBit 33 = false := by
  have hsz : btrfs_super_sys_array_size (List.replicate 4096 0) = 0 :=
    readLE_replicate_zero ..
  have hgo : update_super_go 0 1 (List.replicate 4096 0) 0 0 =
      (0, List.replicate 4096 0, 0) :=
    update_super_go_stop 0 0 (List.replicate 4096 0) 0 0 (by omega)
  have hu : update_super (List.replicate 4096 0) =
      (0, csum_block (listWrite (List.replicate 4096 0) SUPER_SYS_ARRAY_SIZE_OFF
        (u32le 0)) 4096) := by
    unfold update_super
    rw [hsz, hgo]
    rfl
  rw [hu]
  refine ⟨rfl, ?_⟩
  have h1 : btrfs_super_flags (csum_block (listWrite (List.replicate 4096 0)
      SUPER_SYS_ARRAY_SIZE_OFF (u32le 0)) 4096) = 0 := by
    unfold btrfs_super_flags readU64le
    rw [csum_block_readLE _ _ _ _ (by simp [SUPER_FLAGS_OFF]),
      readLE_listWrite_of_le _ _ _ _ _
        (by simp [SUPER_FLAGS_OFF, SUPER_SYS_ARRAY_SIZE_OFF]),
      readLE_replicate_zero]
  rw [h1]
  exact Nat.zero_testBit 33

/-- C1 amended: in old-restore mode the fixup sets the super's `METADUMP`
flag and recomputes the super-block CRC; in normal mode the fixup recomputes
the CRC (after repacking the chunk array) but leaves the flags field - and
hence the `METADUMP` bit - exactly as it was in the dumped super-block. -/
theorem c1_update_super_flags_csum (buf : List Nat)
    (hlen : buf.length = 4096) (hbytes : ∀ b ∈ buf, b < 256) :
    (btrfs_super_flags (update_super_old buf)).testBit 33 = true ∧
    slice (update_super_old buf) 0 4 =
      btrfs_csum_final (crc32c 0xFFFFFFFF
        (slice (update_super_old buf) BTRFS_CSUM_SIZE (4096 - BTRFS_CSUM_SIZE))) ∧
    ((update_super buf).1 = 0 →
      btrfs_super_flags (update_super buf).2 = btrfs_super_flags buf ∧
      slice (update_super buf).2 0 4 =
        btrfs_csum_final (crc32c 0xFFFFFFFF
          (slice (update_super buf).2 BTRFS_CSUM_SIZE (4096 - BTRFS_CSUM_SIZE)))) := by
  have hflagslt : btrfs_super_flags buf < 2 ^ 64 := by
    have := readLE_lt buf SUPER_FLAGS_OFF 8 hbytes
    calc btrfs_super_flags buf < 256 ^ 8 := this
      _ = 2 ^ 64 := by norm_num
  refine ⟨?_, ?_, ?_⟩
  · -- old mode sets the flag
    have hflags : btrfs_super_flags (update_super_old buf) =
        (btrfs_super_flags buf ||| BTRFS_SUPER_FLAG_METADUMP) % 2 ^ 64 := by
      unfold update_super_old
      simp only
      unfold btrfs_super_flags readU64le
      rw [csum_block_readLE _ _ _ _ (by simp [SUPER_FLAGS_OFF])]
      rw [readLE_listWrite_of_le _ _ _ _ _
        (by simp [SUPER_FLAGS_OFF, SUPER_SYS_ARRAY_SIZE_OFF])]
      rw [readLE_listWrite_of_le _ _ _ _ _ (by simp [SUPER_FLAGS_OFF, SYS_CHUNK_ARRAY_OFF]),
        readLE_listWrite_of_le _ _ _ _ _ (by simp [SUPER_FLAGS_OFF, SYS_CHUNK_ARRAY_OFF]),
        readLE_listWrite_of_le _ _ _ _ _ (by simp [SUPER_FLAGS_OFF, SYS_CHUNK_ARRAY_OFF]),
        readLE_listWrite_of_le _ _ _ _ _ (by simp [SUPER_FLAGS_OFF, SYS_CHUNK_ARRAY_OFF]),
        readLE_listWrite_of_le _ _ _ _ _ (by simp [SUPER_FLAGS_OFF, SYS_CHUNK_ARRAY_OFF]),
        readLE_listWrite_of_le _ _ _ _ _ (by simp [SUPER_FLAGS_OFF, SYS_CHUNK_ARRAY_OFF]),
        readLE_listWrite_of_le _ _ _ _ _ (by simp [SUPER_FLAGS_OFF, SYS_CHUNK_ARRAY_OFF]),
        readLE_listWrite_of_le _ _ _ _ _ (by simp [SUPER_FLAGS_OFF, SYS_CHUNK_ARRAY_OFF]),
        readLE_listWrite_of_le _ _ _ _ _ (by simp [SUPER_FLAGS_OFF, SYS_CHUNK_ARRAY_OFF]),
        readLE_listWrite_of_le _ _ _ _ _ (by simp [SUPER_FLAGS_OFF, SYS_CHUNK_ARRAY_OFF]),
        readLE_listWrite_of_le _ _ _ _ _ (by simp [SUPER_FLAGS_OFF, SYS_CHUNK_ARRAY_OFF]),
        readLE_listWrite_of_le _ _ _ _ _ (by simp [SUPER_FLAGS_OFF, SYS_CHUNK_ARRAY_OFF]),
        readLE_listWrite_of_le _ _ _ _ _ (by simp [SUPER_FLAGS_OFF, SYS_CHUNK_ARRAY_OFF])]
      have hexa := readLE_listWrite_exact buf SUPER_FLAGS_OFF 8
        (readLE buf SUPER_FLAGS_OFF 8 ||| BTRFS_SUPER_FLAG_METADUMP)
        (by simp [SUPER_FLAGS_OFF, hlen])
      simp only [u64le] at hexa ⊢
      rw [hexa]
      norm_num
    have hlt : btrfs_super_flags buf ||| BTRFS_SUPER_FLAG_METADUMP < 2 ^ 64 :=
      Nat.or_lt_two_pow hflagslt
        (by show (2 : Nat) ^ 33 < 2 ^ 64; norm_num)
    rw [hflags, Nat.mod_eq_of_lt hlt, Nat.testBit_or]
    have hm : Nat.testBit BTRFS_SUPER_FLAG_METADUMP 33 = true := by decide
    rw [hm, Bool.or_true]
  · -- old mode recomputes the CRC
    unfold update_super_old
    simp only
    refine csum_block_spec _ _ ?_
    simp only [listWrite_length, hlen]
    omega
  · -- normal mode: flags preserved, CRC recomputed
    intro hok
    unfold update_super at hok ⊢
    by_cases hret : (update_super_go (btrfs_super_sys_array_size buf)
        (btrfs_super_sys_array_size buf + 1) buf 0 0).1 = 0
    · rw [if_pos hret]
      constructor
      · unfold btrfs_super_flags readU64le
        rw [csum_block_readLE _ _ _ _ (by simp [SUPER_FLAGS_OFF]),
          readLE_listWrite_of_le _ _ _ _ _
            (by simp [SUPER_FLAGS_OFF, SUPER_SYS_ARRAY_SIZE_OFF])]
        have := update_super_go_low (btrfs_super_sys_array_size buf)
          (btrfs_super_sys_array_size buf + 1) buf 0 0 SUPER_FLAGS_OFF 8
          (by simp [SUPER_FLAGS_OFF, SYS_CHUNK_ARRAY_OFF])
        unfold readLE
        rw [this]
      · refine csum_block_spec _ _ ?_
        simp only [listWrite_length, update_super_go_length, hlen]
        omega
    · rw [if_neg hret] at hok
      exact absurd hok hret

/-- Witness for C1. -/
theorem c1_witness :
    (btrfs_super_flags (update_super_old (List.replicate 4096 0))).testBit 33 = true :=
  (c1_update_super_flags_csum (List.replicate 4096 0) (by rw [List.length_replicate])
    (fun b hb => by rw [List.eq_of_mem_replicate hb]; omega)).1

/-! ## Claim C10 - `update_super` on a bogus key: partial in-place rewrite

The loop copies the key, rewrites the chunk in place, and only on completion
stores the new `sys_array_size` and recomputes the CRC; a non-chunk key makes
it return `-EIO` with the already-processed entries rewritten in place, the
offending key itself already copied down, the original bytes beyond that
untouched, and `sys_array_size`/`flags`/csum unchanged. -/

theorem readLE_skip (A B : List Nat) (d k : Nat) :
    readLE (A ++ B) (A.length + d) k = readLE B d k := by
  rw [readLE_append_right _ _ _ _ (by omega), Nat.add_sub_cancel_left]

theorem slice_skip (A B : List Nat) (d n : Nat) :
    slice (A ++ B) (A.length + d) n = slice B d n := by
  rw [slice_append_right _ _ _ _ (by omega), Nat.add_sub_cancel_left]

theorem slice_low_app (P X : List Nat) (off n : Nat) (h : off + n ≤ P.length) :
    slice (P ++ X) off n = slice P off n :=
  slice_append_left _ _ _ _ h

theorem entry_key_bytes_length (e : sys_entry) : (entry_key_bytes e).length = 17 := by
  simp [entry_key_bytes, u64le_length]

theorem entry_bytes_length (e : sys_entry) :
    (entry_bytes e).length = 17 + e.chunk.length := by
  simp [entry_bytes, entry_key_bytes_length]

theorem fix_chunk_length (devid uuid : List Nat) (koff : Nat) (cb : List Nat)
    (h : 80 ≤ cb.length) : (fix_chunk devid uuid koff cb).length = 80 := by
  simp only [fix_chunk, listWrite_length, List.length_take]
  omega

theorem entry_out_length (devid uuid : List Nat) (e : sys_entry)
    (h : 80 ≤ e.chunk.length) : (entry_out devid uuid e).length = 97 := by
  simp [entry_out, entry_key_bytes_length, fix_chunk_length _ _ _ _ h]

theorem entry_ktype (e : sys_entry) (rest : List Nat) :
    readU8 (entry_bytes e ++ rest) 8 = BTRFS_CHUNK_ITEM_KEY := by
  rw [entry_bytes, entry_key_bytes, readU8, List.append_assoc, List.append_assoc,
    show (8 : Nat) = (u64le e.objectid).length from (u64le_length _).symm,
    show (u64le e.objectid).length = (u64le e.objectid).length + 0 from by omega,
    readLE_skip]
  rfl

theorem entry_koff (e : sys_entry) (rest : List Nat) (h : e.koffset < U64MOD) :
    readU64le (entry_bytes e ++ rest) 9 = e.koffset := by
  rw [entry_bytes, entry_key_bytes, readU64le, List.append_assoc, List.append_assoc,
    show (9 : Nat) = (u64le e.objectid).length + 1 from by rw [u64le_length],
    readLE_skip, List.append_assoc,
    show (1 : Nat) = ([BTRFS_CHUNK_ITEM_KEY] : List Nat).length + 0 from rfl,
    readLE_skip]
  have := readLE_prefix_exact (e.chunk ++ rest) 8 e.koffset
  rw [← u64le] at this
  rw [this, Nat.mod_eq_of_lt]
  have h64 : (256 : Nat) ^ 8 = U64MOD := by norm_num [U64MOD]
  omega

theorem entry_key_slice (e : sys_entry) (rest : List Nat) :
    slice (entry_bytes e ++ rest) 0 17 = entry_key_bytes e := by
  rw [entry_bytes, List.append_assoc,
    slice_append_left _ _ _ _ (by rw [entry_key_bytes_length]),
    slice_take_all _ (by rw [entry_key_bytes_length])]

theorem entry_chunk_drop (e : sys_entry) (rest : List Nat) :
    (entry_bytes e ++ rest).drop 17 = e.chunk ++ rest := by
  rw [entry_bytes, List.append_assoc,
    show (17 : Nat) = (entry_key_bytes e).length from (entry_key_bytes_length e).symm,
    List.drop_left]

theorem entry_nstripes_read (e : sys_entry) (rest : List Nat) (h : 46 ≤ e.chunk.length) :
    readU16le (e.chunk ++ rest) 44 = entry_num_stripes e := by
  rw [readU16le, readLE_append_left _ _ _ _ (by omega)]
  rfl

/-- A write inside the 80-byte chunk segment of the repacked buffer. -/
theorem listWrite_seg (P K S T bs : List Nat) (ncur d : Nat)
    (hP : P.length = SYS_CHUNK_ARRAY_OFF + ncur) (hK : K.length = 17)
    (hS : d + bs.length ≤ S.length) :
    listWrite (P ++ (K ++ (S ++ T))) (SYS_CHUNK_ARRAY_OFF + (ncur + 17) + d) bs =
      P ++ (K ++ (listWrite S d bs ++ T)) := by
  rw [show SYS_CHUNK_ARRAY_OFF + (ncur + 17) + d = P.length + (17 + d) from by omega,
    listWrite_append_right _ _ _ _ (by omega), Nat.add_sub_cancel_left,
    show (17 + d : Nat) = K.length + d from by omega,
    listWrite_append_right _ _ _ _ (by omega), Nat.add_sub_cancel_left,
    listWrite_append_left _ _ _ _ hS]

/-- One iteration of the repacking loop on a well-formed chunk entry. -/
theorem update_super_go_step (a fuel : Nat) (P D rest : List Nat) (e : sys_entry)
    (ncur g : Nat)
    (hP : P.length = SYS_CHUNK_ARRAY_OFF + ncur)
    (hD : D.drop g = entry_bytes e ++ rest)
    (hwf : entry_wf e)
    (hcur : ncur + g < a) :
    update_super_go a (fuel + 1) (P ++ D) (ncur + g) ncur =
      update_super_go a fuel
        (P ++ (entry_key_bytes e ++
          (fix_chunk (slice P SUPER_DEVID_OFF 8) (slice P SUPER_DEV_UUID_OFF 16)
            e.koffset e.chunk ++ D.drop 97)))
        (ncur + g + 17 + e.chunk.length) (ncur + 97) := by
  have hch80 : 80 ≤ e.chunk.length := by
    have h1 := hwf.2.1
    have h2 := hwf.2.2
    simp only [chunk_item_size] at h2
    omega
  have hDlen : D.length = g + (17 + e.chunk.length + rest.length) := by
    have hl := congrArg List.length hD
    simp only [List.length_drop, List.length_append, entry_bytes_length] at hl
    omega
  have hcomm : (D.drop 17).drop g = e.chunk ++ rest := by
    have h1 : (D.drop 17).drop g = (D.drop g).drop 17 := by
      rw [List.drop_drop, List.drop_drop]
      congr 1
      omega
    rw [h1, hD]
    exact entry_chunk_drop e rest
  have r1 : readU8 (P ++ D) (SYS_CHUNK_ARRAY_OFF + (ncur + g) + 8) =
      BTRFS_CHUNK_ITEM_KEY := by
    rw [show SYS_CHUNK_ARRAY_OFF + (ncur + g) + 8 = P.length + (g + 8) from by omega,
      readU8, readLE_skip]
    have hsh : readLE D (g + 8) 1 = readLE (D.drop g) 8 1 := by
      rw [readLE, readLE, slice_add]
    rw [hsh, hD]
    exact entry_ktype e rest
  have r2 : readU64le (P ++ D) (SYS_CHUNK_ARRAY_OFF + (ncur + g) + 9) = e.koffset := by
    rw [show SYS_CHUNK_ARRAY_OFF + (ncur + g) + 9 = P.length + (g + 9) from by omega,
      readU64le, readLE_skip]
    have hsh : readLE D (g + 9) 8 = readLE (D.drop g) 9 8 := by
      rw [readLE, readLE, slice_add]
    rw [hsh, hD]
    exact entry_koff e rest hwf.1
  have r3 : slice (P ++ D) (SYS_CHUNK_ARRAY_OFF + (ncur + g)) 17 = entry_key_bytes e := by
    rw [show SYS_CHUNK_ARRAY_OFF + (ncur + g) = P.length + g from by omega,
      slice_skip, slice_drop0, hD]
    exact entry_key_slice e rest
  have r4 : listWrite (P ++ D) (SYS_CHUNK_ARRAY_OFF + ncur) (entry_key_bytes e) =
      P ++ (entry_key_bytes e ++ D.drop 17) := by
    rw [show SYS_CHUNK_ARRAY_OFF + ncur = P.length from hP.symm,
      listWrite_append_right _ _ _ _ le_rfl, Nat.sub_self,
      listWrite_prefix _ _ (by rw [entry_key_bytes_length]; omega),
      entry_key_bytes_length]
  have r5 : readU16le (P ++ (entry_key_bytes e ++ D.drop 17))
      (SYS_CHUNK_ARRAY_OFF + (ncur + g + 17) + 44) = entry_num_stripes e := by
    rw [show SYS_CHUNK_ARRAY_OFF + (ncur + g + 17) + 44 = P.length + (g + 61) from
        by omega,
      readU16le, readLE_skip,
      show (g + 61 : Nat) = (entry_key_bytes e).length + (g + 44) from by
        rw [entry_key_bytes_length]; omega,
      readLE_skip]
    have hsh : readLE (D.drop 17) (g + 44) 2 = readLE ((D.drop 17).drop g) 44 2 := by
      rw [readLE, readLE, slice_add]
    rw [hsh, hcomm]
    exact entry_nstripes_read e rest (by omega)
  have r6 : slice (P ++ (entry_key_bytes e ++ D.drop 17))
      (SYS_CHUNK_ARRAY_OFF + (ncur + g + 17)) 80 = e.chunk.take 80 := by
    rw [show SYS_CHUNK_ARRAY_OFF + (ncur + g + 17) = P.length + (17 + g) from by omega,
      slice_skip,
      show (17 + g : Nat) = (entry_key_bytes e).length + g from by
        rw [entry_key_bytes_length],
      slice_skip, slice_drop0, hcomm,
      slice_append_left _ _ _ _ (by omega), slice_zero_left]
  have ht80 : (e.chunk.take 80).length = 80 := by
    simp only [List.length_take]
    omega
  have r7 : listWrite (P ++ (entry_key_bytes e ++ D.drop 17))
      (SYS_CHUNK_ARRAY_OFF + (ncur + 17)) (e.chunk.take 80) =
      P ++ (entry_key_bytes e ++ (e.chunk.take 80 ++ D.drop 97)) := by
    have hdd : (D.drop 17).drop (e.chunk.take 80).length = D.drop 97 := by
      rw [ht80, List.drop_drop]
    rw [show SYS_CHUNK_ARRAY_OFF + (ncur + 17) = P.length + 17 from by omega,
      listWrite_append_right _ _ _ _ (by omega), Nat.add_sub_cancel_left,
      listWrite_append_right _ _ _ _ (by rw [entry_key_bytes_length]),
      show 17 - (entry_key_bytes e).length = 0 from by rw [entry_key_bytes_length],
      listWrite_prefix _ _ (by
        simp only [List.length_take, List.length_drop]
        omega),
      hdd]
  simp only [update_super_go]
  rw [if_pos hcur, r1, if_pos rfl, r2, r3, r4, r5, r6, r7]
  rw [listWrite_seg P (entry_key_bytes e) _ _ _ ncur 44 hP (entry_key_bytes_length e)
      (by rw [u16le_length, ht80]; omega),
    listWrite_seg P (entry_key_bytes e) _ _ _ ncur 46 hP (entry_key_bytes_length e)
      (by rw [u16le_length, listWrite_length, ht80]; omega),
    listWrite_seg P (entry_key_bytes e) _ _ _ ncur 24 hP (entry_key_bytes_length e)
      (by rw [u64le_length, listWrite_length, listWrite_length, ht80]; omega),
    slice_low_app _ _ _ _ (by
      simp only [SUPER_DEVID_OFF]
      rw [hP]
      simp only [SYS_CHUNK_ARRAY_OFF]
      omega),
    listWrite_seg P (entry_key_bytes e) _ _ _ ncur 48 hP (entry_key_bytes_length e)
      (by
        rw [slice_length, hP]
        simp only [listWrite_length, ht80, SUPER_DEVID_OFF, SYS_CHUNK_ARRAY_OFF]
        omega),
    listWrite_seg P (entry_key_bytes e) _ _ _ ncur 56 hP (entry_key_bytes_length e)
      (by simp only [u64le_length, listWrite_length, ht80]; omega),
    slice_low_app _ _ _ _ (by
      simp only [SUPER_DEV_UUID_OFF]
      rw [hP]
      simp only [SYS_CHUNK_ARRAY_OFF]
      omega),
    listWrite_seg P (entry_key_bytes e) _ _ _ ncur 64 hP (entry_key_bytes_length e)
      (by
        rw [slice_length, hP]
        simp only [listWrite_length, ht80, SUPER_DEV_UUID_OFF, SYS_CHUNK_ARRAY_OFF]
        omega)]
  rw [← hwf.2.2, show ncur + 17 + 80 = ncur + 97 from by omega,
    show ncur + g + 17 + e.chunk.length = ncur + g + 17 + e.chunk.length from rfl]
  rfl

theorem flatten_entry_bytes_length_ge (es : List sys_entry)
    (hwf : ∀ e ∈ es, entry_wf e) :
    97 * es.length ≤ ((es.map entry_bytes).flatten).length := by
  induction es with
  | nil => simp
  | cons e es ih =>
    have he := hwf e (List.mem_cons_self e es)
    have hch80 : 80 ≤ e.chunk.length := by
      have h1 := he.2.1
      have h2 := he.2.2
      simp only [chunk_item_size] at h2
      omega
    have ih2 := ih (fun e' he' => hwf e' (List.mem_cons_of_mem e he'))
    simp only [List.map_cons, List.flatten_cons, List.length_append,
      List.length_cons, entry_bytes_length]
    omega

/-- Running the repacking loop across a list of well-formed chunk entries. -/
theorem update_super_go_run (a : Nat) (devid uuid : List Nat) (es : List sys_entry) :
    ∀ (fuel : Nat) (P D tail : List Nat) (ncur g : Nat),
      es.length ≤ fuel →
      (∀ e ∈ es, entry_wf e) →
      P.length = SYS_CHUNK_ARRAY_OFF + ncur →
      slice P SUPER_DEVID_OFF 8 = devid →
      slice P SUPER_DEV_UUID_OFF 16 = uuid →
      D.drop g = (es.map entry_bytes).flatten ++ tail →
      ncur + g + ((es.map entry_bytes).flatten).length ≤ a →
      update_super_go a fuel (P ++ D) (ncur + g) ncur =
        update_super_go a (fuel - es.length)
          (P ++ ((es.map (entry_out devid uuid)).flatten ++ D.drop (97 * es.length)))
          (ncur + g + ((es.map entry_bytes).flatten).length)
          (ncur + 97 * es.length) := by
  induction es with
  | nil =>
    intro fuel P D tail ncur g hf hwf hP hdev huuid hD hA
    simp
  | cons e es ih =>
    intro fuel P D tail ncur g hf hwf hP hdev huuid hD hA
    obtain ⟨f, rfl⟩ : ∃ f, fuel = f + 1 :=
      ⟨fuel - 1, by simp only [List.length_cons] at hf; omega⟩
    have hwfe : entry_wf e := hwf e (List.mem_cons_self e es)
    have hch80 : 80 ≤ e.chunk.length := by
      have h1 := hwfe.2.1
      have h2 := hwfe.2.2
      simp only [chunk_item_size] at h2
      omega
    have hflat : (List.map entry_bytes (e :: es)).flatten =
        entry_bytes e ++ (List.map entry_bytes es).flatten := by
      simp
    have hD' : D.drop g =
        entry_bytes e ++ ((List.map entry_bytes es).flatten ++ tail) := by
      rw [hD, hflat, List.append_assoc]
    have hflen : ((List.map entry_bytes (e :: es)).flatten).length =
        17 + e.chunk.length + ((List.map entry_bytes es).flatten).length := by
      rw [hflat]
      simp [entry_bytes_length]
    have hcurlt : ncur + g < a := by
      rw [hflen] at hA
      omega
    rw [update_super_go_step a f P D ((List.map entry_bytes es).flatten ++ tail) e
        ncur g hP hD' hwfe hcurlt, hdev, huuid]
    have hbuf : P ++ (entry_key_bytes e ++
        (fix_chunk devid uuid e.koffset e.chunk ++ D.drop 97)) =
        (P ++ entry_out devid uuid e) ++ D.drop 97 := by
      simp [entry_out, List.append_assoc]
    rw [hbuf,
      show ncur + g + 17 + e.chunk.length =
        ncur + 97 + (g + e.chunk.length - 80) from by omega]
    have hP' : (P ++ entry_out devid uuid e).length =
        SYS_CHUNK_ARRAY_OFF + (ncur + 97) := by
      rw [List.length_append, entry_out_length _ _ _ hch80, hP]
      omega
    have hdev' : slice (P ++ entry_out devid uuid e) SUPER_DEVID_OFF 8 = devid := by
      rw [slice_low_app _ _ _ _ (by
        rw [hP]
        simp only [SUPER_DEVID_OFF, SYS_CHUNK_ARRAY_OFF]
        omega)]
      exact hdev
    have huuid' : slice (P ++ entry_out devid uuid e) SUPER_DEV_UUID_OFF 16 = uuid := by
      rw [slice_low_app _ _ _ _ (by
        rw [hP]
        simp only [SUPER_DEV_UUID_OFF, SYS_CHUNK_ARRAY_OFF]
        omega)]
      exact huuid
    have hdrop : (D.drop 97).drop (g + e.chunk.length - 80) =
        (List.map entry_bytes es).flatten ++ tail := by
      have h1 : (D.drop 97).drop (g + e.chunk.length - 80) =
          (D.drop g).drop (17 + e.chunk.length) := by
        rw [List.drop_drop, List.drop_drop]
        congr 1
        omega
      rw [h1, hD',
        show 17 + e.chunk.length = (entry_bytes e).length from
          (entry_bytes_length e).symm,
        List.drop_left]
    have hA' : ncur + 97 + (g + e.chunk.length - 80) +
        ((List.map entry_bytes es).flatten).length ≤ a := by
      rw [hflen] at hA
      omega
    rw [ih f (P ++ entry_out devid uuid e) (D.drop 97) tail (ncur + 97)
      (g + e.chunk.length - 80)
      (by simp only [List.length_cons] at hf; omega)
      (fun e' he' => hwf e' (List.mem_cons_of_mem e he'))
      hP' hdev' huuid' hdrop hA']
    have a1 : f + 1 - (e :: es).length = f - es.length := by
      simp
    have a2 : P ++ ((List.map (entry_out devid uuid) (e :: es)).flatten ++
        D.drop (97 * (e :: es).length)) =
        (P ++ entry_out devid uuid e) ++
          ((List.map (entry_out devid uuid) es).flatten ++
            (D.drop 97).drop (97 * es.length)) := by
      have hdd : (D.drop 97).drop (97 * es.length) =
          D.drop (97 * (e :: es).length) := by
        rw [List.drop_drop]
        congr 1
        simp only [List.length_cons]
        omega
      rw [hdd]
      simp [List.append_assoc]
    have a3 : ncur + g + ((List.map entry_bytes (e :: es)).flatten).length =
        ncur + 97 + (g + e.chunk.length - 80) +
          ((List.map entry_bytes es).flatten).length := by
      rw [hflen]
      omega
    have a4 : ncur + 97 * (e :: es).length = ncur + 97 + 97 * es.length := by
      simp only [List.length_cons]
      omega
    rw [a1, a2, a3, a4]

/-- The loop's exit on a non-chunk key: the 17-byte key is already copied
down to the write offset, and the call returns `-EIO`. -/
theorem update_super_go_stop_bad (a fuel : Nat) (P D : List Nat) (ncur g : Nat)
    (hP : P.length = SYS_CHUNK_ARRAY_OFF + ncur)
    (hlen : g + 17 ≤ D.length)
    (hbad : ¬readU8 D (g + 8) = BTRFS_CHUNK_ITEM_KEY)
    (hcur : ncur + g < a) :
    update_super_go a (fuel + 1) (P ++ D) (ncur + g) ncur =
      (- EIO, P ++ (slice D g 17 ++ D.drop 17), ncur + 17) := by
  have hk : readU8 (P ++ D) (SYS_CHUNK_ARRAY_OFF + (ncur + g) + 8) =
      readU8 D (g + 8) := by
    rw [readU8, show SYS_CHUNK_ARRAY_OFF + (ncur + g) + 8 = P.length + (g + 8) from
      by omega, readLE_skip, readU8]
  have hs : slice (P ++ D) (SYS_CHUNK_ARRAY_OFF + (ncur + g)) 17 = slice D g 17 := by
    rw [show SYS_CHUNK_ARRAY_OFF + (ncur + g) = P.length + g from by omega, slice_skip]
  have hsl : (slice D g 17).length = 17 := by
    rw [slice_length]
    omega
  simp only [update_super_go]
  rw [if_pos hcur, hk, if_neg hbad, hs,
    show SYS_CHUNK_ARRAY_OFF + ncur = P.length from hP.symm,
    listWrite_append_right _ _ _ _ le_rfl, Nat.sub_self,
    listWrite_prefix _ _ (by rw [hsl]; omega),
    hsl]

theorem slice_take_pre (l : List Nat) (m off n : Nat) (hm : m ≤ l.length)
    (h : off + n ≤ m) : slice (l.take m) off n = slice l off n := by
  conv_rhs => rw [← List.take_append_drop m l]
  rw [slice_append_left _ _ _ _ (by rw [List.length_take]; omega)]

theorem readLE_take_pre (l : List Nat) (m off k : Nat) (hm : m ≤ l.length)
    (h : off + k ≤ m) : readLE (l.take m) off k = readLE l off k := by
  rw [readLE, readLE, slice_take_pre l m off k hm h]

theorem flatten_entry_out_length (devid uuid : List Nat) (es : List sys_entry)
    (hwf : ∀ e ∈ es, entry_wf e) :
    ((es.map (entry_out devid uuid)).flatten).length = 97 * es.length := by
  induction es with
  | nil => simp
  | cons e es ih =>
    have he := hwf e (List.mem_cons_self e es)
    have hch80 : 80 ≤ e.chunk.length := by
      have h1 := he.2.1
      have h2 := he.2.2
      simp only [chunk_item_size] at h2
      omega
    have ih2 := ih (fun e' he' => hwf e' (List.mem_cons_of_mem e he'))
    simp only [List.map_cons, List.flatten_cons, List.length_append, List.length_cons,
      entry_out_length _ _ _ hch80, ih2]
    omega

/-- Reading the rewritten single-stripe count out of `fix_chunk`. -/
theorem fix_chunk_num_stripes (devid uuid : List Nat) (koff : Nat) (cb : List Nat)
    (h : 80 ≤ cb.length) :
    readU16le (fix_chunk devid uuid koff cb) 44 = 1 := by
  simp only [fix_chunk, readU16le]
  rw [readLE_listWrite_of_le _ _ _ _ _ (by omega),
    readLE_listWrite_of_le _ _ _ _ _ (by omega),
    readLE_listWrite_of_le _ _ _ _ _ (by omega),
    readLE_listWrite_of_ge _ _ _ _ _ (by rw [u64le_length]; omega),
    readLE_listWrite_of_le _ _ _ _ _ (by omega),
    u16le,
    readLE_listWrite_exact _ _ _ _ (by simp only [List.length_take]; omega)]
  norm_num

/-- C10: on a system-chunk-array entry whose key type is not `CHUNK_ITEM`,
`update_super` returns `-EIO` with the already-processed entries rewritten in
place to single-stripe form, the bogus 17-byte key copied down to the write
offset, the bytes beyond it untouched, and `sys_array_size`, `flags` and the
checksum field all still holding the original super's values (no atomicity,
no final-size store, no CRC recomputation). -/
theorem c10_update_super_partial_on_error
    (orig : List Nat) (es : List sys_entry) (bad suffix devid uuid : List Nat)
    (h4096 : orig.length = 4096)
    (hdev : slice orig SUPER_DEVID_OFF 8 = devid)
    (huuid : slice orig SUPER_DEV_UUID_OFF 16 = uuid)
    (harr : orig.drop SYS_CHUNK_ARRAY_OFF =
      (es.map entry_bytes).flatten ++ (bad ++ suffix))
    (hwf : ∀ e ∈ es, entry_wf e)
    (hbadlen : bad.length = 17)
    (hbadtype : ¬readU8 bad 8 = BTRFS_CHUNK_ITEM_KEY)
    (hsize : ((es.map entry_bytes).flatten).length + 17 ≤
      btrfs_super_sys_array_size orig) :
    (update_super orig).1 = - EIO ∧
    (update_super orig).2 =
      (orig.take SYS_CHUNK_ARRAY_OFF ++ (es.map (entry_out devid uuid)).flatten) ++
        (bad ++ (orig.drop SYS_CHUNK_ARRAY_OFF).drop (97 * es.length + 17)) ∧
    btrfs_super_sys_array_size (update_super orig).2 =
      btrfs_super_sys_array_size orig ∧
    btrfs_super_flags (update_super orig).2 = btrfs_super_flags orig ∧
    slice (update_super orig).2 0 BTRFS_CSUM_SIZE = slice orig 0 BTRFS_CSUM_SIZE ∧
    ∀ e ∈ es, readU16le (fix_chunk devid uuid e.koffset e.chunk) 44 = 1 := by
  have hPlen : (orig.take SYS_CHUNK_ARRAY_OFF).length = SYS_CHUNK_ARRAY_OFF := by
    rw [List.length_take, h4096]
    simp only [SYS_CHUNK_ARRAY_OFF]
    omega
  have hkL : 97 * es.length ≤ ((es.map entry_bytes).flatten).length :=
    flatten_entry_bytes_length_ge es hwf
  have houts : ((es.map (entry_out devid uuid)).flatten).length = 97 * es.length :=
    flatten_entry_out_length devid uuid es hwf
  have hrun := update_super_go_run (btrfs_super_sys_array_size orig) devid uuid es
    (btrfs_super_sys_array_size orig + 1)
    (orig.take SYS_CHUNK_ARRAY_OFF) (orig.drop SYS_CHUNK_ARRAY_OFF)
    (bad ++ suffix) 0 0
    (by omega)
    hwf
    (by rw [hPlen]; omega)
    (by
      rw [slice_take_pre orig SYS_CHUNK_ARRAY_OFF _ _
        (by rw [h4096]; simp only [SYS_CHUNK_ARRAY_OFF]; omega)
        (by simp only [SUPER_DEVID_OFF, SYS_CHUNK_ARRAY_OFF]; omega)]
      exact hdev)
    (by
      rw [slice_take_pre orig SYS_CHUNK_ARRAY_OFF _ _
        (by rw [h4096]; simp only [SYS_CHUNK_ARRAY_OFF]; omega)
        (by simp only [SUPER_DEV_UUID_OFF, SYS_CHUNK_ARRAY_OFF]; omega)]
      exact huuid)
    (by rw [List.drop_zero]; exact harr)
    (by omega)
  simp only [Nat.add_zero, Nat.zero_add] at hrun
  have hDkdrop : ((orig.drop SYS_CHUNK_ARRAY_OFF).drop (97 * es.length)).drop
      (((es.map entry_bytes).flatten).length - 97 * es.length) = bad ++ suffix := by
    have h1 : ((orig.drop SYS_CHUNK_ARRAY_OFF).drop (97 * es.length)).drop
        (((es.map entry_bytes).flatten).length - 97 * es.length) =
        (orig.drop SYS_CHUNK_ARRAY_OFF).drop
          ((es.map entry_bytes).flatten).length := by
      rw [List.drop_drop]
      congr 1
      omega
    rw [h1, harr]
    exact List.drop_left _ _
  have hlen2 : ((es.map entry_bytes).flatten).length - 97 * es.length + 17 ≤
      ((orig.drop SYS_CHUNK_ARRAY_OFF).drop (97 * es.length)).length := by
    have hl := congrArg List.length hDkdrop
    simp only [List.length_drop, List.length_append, hbadlen] at hl
    simp only [List.length_drop]
    omega
  have hread : readU8 ((orig.drop SYS_CHUNK_ARRAY_OFF).drop (97 * es.length))
      (((es.map entry_bytes).flatten).length - 97 * es.length + 8) =
      readU8 bad 8 := by
    rw [readU8, readLE, slice_add, readU8, readLE, hDkdrop,
      slice_append_left _ _ _ _ (by omega)]
  have hend := update_super_go_stop_bad (btrfs_super_sys_array_size orig)
    (btrfs_super_sys_array_size orig - es.length)
    (orig.take SYS_CHUNK_ARRAY_OFF ++ (es.map (entry_out devid uuid)).flatten)
    ((orig.drop SYS_CHUNK_ARRAY_OFF).drop (97 * es.length))
    (97 * es.length)
    (((es.map entry_bytes).flatten).length - 97 * es.length)
    (by rw [List.length_append, hPlen, houts])
    hlen2
    (by rw [hread]; exact hbadtype)
    (by omega)
  rw [show btrfs_super_sys_array_size orig + 1 - es.length =
      btrfs_super_sys_array_size orig - es.length + 1 from by omega,
    show orig.take SYS_CHUNK_ARRAY_OFF ++
        ((es.map (entry_out devid uuid)).flatten ++
          (orig.drop SYS_CHUNK_ARRAY_OFF).drop (97 * es.length)) =
      (orig.take SYS_CHUNK_ARRAY_OFF ++ (es.map (entry_out devid uuid)).flatten) ++
        (orig.drop SYS_CHUNK_ARRAY_OFF).drop (97 * es.length) from
      (List.append_assoc _ _ _).symm,
    show ((es.map entry_bytes).flatten).length =
      97 * es.length + (((es.map entry_bytes).flatten).length - 97 * es.length) from
      by omega,
    hend] at hrun
  have hsliceBad : slice ((orig.drop SYS_CHUNK_ARRAY_OFF).drop (97 * es.length))
      (((es.map entry_bytes).flatten).length - 97 * es.length) 17 = bad := by
    rw [slice_drop0, hDkdrop, slice_zero_left]
    exact List.take_left' hbadlen
  have htail : ((orig.drop SYS_CHUNK_ARRAY_OFF).drop (97 * es.length)).drop 17 =
      (orig.drop SYS_CHUNK_ARRAY_OFF).drop (97 * es.length + 17) := by
    rw [List.drop_drop]
  rw [hsliceBad, htail, List.take_append_drop] at hrun
  have hcond : ¬((update_super_go (btrfs_super_sys_array_size orig)
      (btrfs_super_sys_array_size orig + 1) orig 0 0).1 = 0) := by
    rw [hrun]
    norm_num [ EIO]
  have hu : update_super orig =
      (- EIO, (orig.take SYS_CHUNK_ARRAY_OFF ++
          (es.map (entry_out devid uuid)).flatten) ++
        (bad ++ (orig.drop SYS_CHUNK_ARRAY_OFF).drop (97 * es.length + 17))) := by
    rw [update_super, if_neg hcond, hrun]
  have hB2 : (update_super orig).2 =
      (orig.take SYS_CHUNK_ARRAY_OFF ++ (es.map (entry_out devid uuid)).flatten) ++
        (bad ++ (orig.drop SYS_CHUNK_ARRAY_OFF).drop (97 * es.length + 17)) := by
    rw [hu]
  have hlow : ∀ off n : Nat, off + n ≤ SYS_CHUNK_ARRAY_OFF →
      slice ((orig.take SYS_CHUNK_ARRAY_OFF ++
          (es.map (entry_out devid uuid)).flatten) ++
        (bad ++ (orig.drop SYS_CHUNK_ARRAY_OFF).drop (97 * es.length + 17))) off n =
      slice orig off n := by
    intro off n h
    rw [slice_low_app _ _ _ _ (by rw [List.length_append, hPlen, houts]; omega),
      slice_low_app _ _ _ _ (by rw [hPlen]; omega),
      slice_take_pre orig SYS_CHUNK_ARRAY_OFF off n
        (by rw [h4096]; simp only [SYS_CHUNK_ARRAY_OFF]; omega) h]
  refine ⟨by rw [hu], hB2, ?_, ?_, ?_, ?_⟩
  · rw [hB2, btrfs_super_sys_array_size, btrfs_super_sys_array_size,
      readU32le, readU32le, readLE, readLE,
      hlow _ _ (by simp only [SUPER_SYS_ARRAY_SIZE_OFF, SYS_CHUNK_ARRAY_OFF]; omega)]
  · rw [hB2, btrfs_super_flags, btrfs_super_flags, readU64le, readU64le,
      readLE, readLE,
      hlow _ _ (by simp only [SUPER_FLAGS_OFF, SYS_CHUNK_ARRAY_OFF]; omega)]
  · rw [hB2,
      hlow _ _ (by simp only [BTRFS_CSUM_SIZE, SYS_CHUNK_ARRAY_OFF]; omega)]
  · intro e he
    have hewf := hwf e he
    have hch80 : 80 ≤ e.chunk.length := by
      have h1 := hewf.2.1
      have h2 := hewf.2.2
      simp only [chunk_item_size] at h2
      omega
    exact fix_chunk_num_stripes devid uuid e.koffset e.chunk hch80

/-! ## Claims C9 and C5 - the restore engine's decompression bound and
framing check -/

theorem update_super_go_ret (a : Nat) :
    ∀ (fuel : Nat) (buf : List Nat) (cur ncur : Nat),
      (update_super_go a fuel buf cur ncur).1 = 0 ∨
      (update_super_go a fuel buf cur ncur).1 = - EIO := by
  intro fuel
  induction fuel with
  | zero => intro buf cur ncur; exact Or.inl rfl
  | succ f ih =>
    intro buf cur ncur
    simp only [update_super_go]
    by_cases h1 : cur < a
    · rw [if_pos h1]
      by_cases h2 : readU8 buf (SYS_CHUNK_ARRAY_OFF + cur + 8) = BTRFS_CHUNK_ITEM_KEY
      · rw [if_pos h2]
        exact ih _ _ _
      · rw [if_neg h2]
        exact Or.inr rfl
    · rw [if_neg h1]
      exact Or.inl rfl

theorem update_super_ret (b : List Nat) :
    (update_super b).1 = 0 ∨ (update_super b).1 = - EIO := by
  rw [update_super]
  by_cases h : (update_super_go (btrfs_super_sys_array_size b)
      (btrfs_super_sys_array_size b + 1) b 0 0).1 = 0
  · rw [if_pos h]
    exact Or.inl rfl
  · rw [if_neg h]
    rcases update_super_go_ret (btrfs_super_sys_array_size b)
        (btrfs_super_sys_array_size b + 1) b 0 0 with h0 | he
    · exact absurd h0 h
    · exact Or.inr he

theorem uncompress_call_ok (uncomp : List Nat → Option (List Nat))
    (buf out : List Nat) (hout : uncomp buf = some out)
    (hle : out.length ≤ MAX_PENDING_SIZE * 2) :
    uncompress_call uncomp (MAX_PENDING_SIZE * 2) buf = .ok out := by
  simp only [uncompress_call, hout]
  rw [if_neg (by omega)]

theorem uncompress_call_oversize (uncomp : List Nat → Option (List Nat))
    (buf out : List Nat) (hout : uncomp buf = some out)
    (hbig : MAX_PENDING_SIZE * 2 < out.length) :
    uncompress_call uncomp (MAX_PENDING_SIZE * 2) buf = .error (- EIO) := by
  simp only [uncompress_call, hout]
  rw [if_pos hbig]

theorem rwi_dec_oversize (uncomp : List Nat → Option (List Nat))
    (scratch : List Nat) (mdres : mdrestore_struct) (a : rst_item)
    (out : List Nat) (hz : mdres.compress_method = COMPRESS_ZLIB)
    (hout : uncomp a.buffer = some out)
    (hbig : MAX_PENDING_SIZE * 2 < out.length) :
    rwi_dec uncomp scratch mdres a = (- EIO, scratch) := by
  rw [rwi_dec, if_pos hz, uncompress_call_oversize uncomp a.buffer out hout hbig]

theorem rwi_fixed_fst_eio
    (fixupf : mdrestore_struct → rst_item → List Nat → List Nat)
    (mdres : mdrestore_struct) (a : rst_item) (dec : Int × List Nat)
    (hd : dec.1 = - EIO) : (rwi_fixed fixupf mdres a dec).1 = - EIO := by
  rw [rwi_fixed]
  by_cases hs : a.start = BTRFS_SUPER_INFO_OFFSET
  · rw [if_pos hs]
    by_cases ho : mdres.old_restore = true
    · rw [if_pos ho]
      exact hd
    · rw [if_neg ho]
      rcases update_super_ret dec.2 with h0 | he
      · rw [if_neg (fun hc => hc h0)]
        exact hd
      · rw [if_pos (by rw [he]; decide)]
        exact he
  · rw [if_neg hs]
    by_cases ho : ¬mdres.old_restore = true
    · rw [if_pos ho]
      exact hd
    · rw [if_neg ho]
      exact hd

theorem restore_worker_item_oversize (uncomp : List Nat → Option (List Nat))
    (fixupf : mdrestore_struct → rst_item → List Nat → List Nat)
    (ts : Nat) (scratch : List Nat) (mdres : mdrestore_struct) (a : rst_item)
    (out : List Nat) (hz : mdres.compress_method = COMPRESS_ZLIB)
    (hout : uncomp a.buffer = some out)
    (hbig : MAX_PENDING_SIZE * 2 < out.length) (he0 : mdres.error = 0) :
    (restore_worker_item uncomp fixupf ts scratch mdres a).1.error = - EIO := by
  have hfst : (rwi_fixed fixupf mdres a (rwi_dec uncomp scratch mdres a)).1 =
      - EIO :=
    rwi_fixed_fst_eio fixupf mdres a _
      (by rw [rwi_dec_oversize uncomp scratch mdres a out hz hout hbig])
  simp only [restore_worker_item]
  rw [if_pos ⟨by rw [hfst]; decide, he0⟩]
  exact hfst

theorem restore_worker_item_error_stable (uncomp : List Nat → Option (List Nat))
    (fixupf : mdrestore_struct → rst_item → List Nat → List Nat)
    (ts : Nat) (scratch : List Nat) (mdres : mdrestore_struct) (a : rst_item)
    (h : ¬mdres.error = 0) :
    (restore_worker_item uncomp fixupf ts scratch mdres a).1.error =
      mdres.error := by
  simp only [restore_worker_item]
  rw [if_neg (fun hc => h hc.2)]

theorem restore_worker_item_compress_stable (uncomp : List Nat → Option (List Nat))
    (fixupf : mdrestore_struct → rst_item → List Nat → List Nat)
    (ts : Nat) (scratch : List Nat) (mdres : mdrestore_struct) (a : rst_item) :
    (restore_worker_item uncomp fixupf ts scratch mdres a).1.compress_method =
      mdres.compress_method := rfl

theorem fill_mdres_info_oversize (uncomp : List Nat → Option (List Nat))
    (mdres : mdrestore_struct) (a : rst_item) (out : List Nat)
    (hz : mdres.compress_method = COMPRESS_ZLIB)
    (hout : uncomp a.buffer = some out)
    (hbig : MAX_PENDING_SIZE * 2 < out.length) :
    fill_mdres_info uncomp mdres a = .error (- EIO) := by
  rw [fill_mdres_info, if_pos hz,
    uncompress_call_oversize uncomp a.buffer out hout hbig]

theorem process_items_error_stable (uncomp : List Nat → Option (List Nat))
    (fixupf : mdrestore_struct → rst_item → List Nat → List Nat)
    (ts : Nat) (scratch : List Nat) :
    ∀ (items : List rst_item) (mdres : mdrestore_struct), ¬mdres.error = 0 →
      (process_items uncomp fixupf ts scratch mdres items).1.error =
        mdres.error := by
  intro items
  induction items with
  | nil => intro mdres h; rfl
  | cons a items ih =>
    intro mdres h
    simp only [process_items]
    rw [ih ((restore_worker_item uncomp fixupf ts scratch mdres a).1)
        (by rw [restore_worker_item_error_stable uncomp fixupf ts scratch mdres a h]
            exact h),
      restore_worker_item_error_stable uncomp fixupf ts scratch mdres a h]

theorem process_items_oversize (uncomp : List Nat → Option (List Nat))
    (fixupf : mdrestore_struct → rst_item → List Nat → List Nat)
    (ts : Nat) (scratch : List Nat) :
    ∀ (items : List rst_item) (mdres : mdrestore_struct),
      mdres.compress_method = COMPRESS_ZLIB → mdres.error = 0 →
      (∃ a ∈ items, ∃ out, uncomp a.buffer = some out ∧
        MAX_PENDING_SIZE * 2 < out.length) →
      ¬(process_items uncomp fixupf ts scratch mdres items).1.error = 0 := by
  intro items
  induction items with
  | nil =>
    intro mdres hz he0 hex
    obtain ⟨a, ha, _⟩ := hex
    exact absurd ha (List.not_mem_nil a)
  | cons b items ih =>
    intro mdres hz he0 hex
    simp only [process_items]
    by_cases hr : (restore_worker_item uncomp fixupf ts scratch mdres b).1.error = 0
    · obtain ⟨a, ha, out, hout, hbig⟩ := hex
      rcases List.mem_cons.mp ha with rfl | hmem
      · exfalso
        have h1 := restore_worker_item_oversize uncomp fixupf ts scratch mdres a
          out hz hout hbig he0
        rw [hr] at h1
        exact absurd h1 (by decide)
      · exact ih ((restore_worker_item uncomp fixupf ts scratch mdres b).1)
          (by rw [restore_worker_item_compress_stable]; exact hz)
          hr ⟨a, hmem, out, hout, hbig⟩
    · rw [process_items_error_stable uncomp fixupf ts scratch items
        ((restore_worker_item uncomp fixupf ts scratch mdres b).1) hr]
      exact hr

/-- C9: on restore with zlib compression every work item - the super included,
via `fill_mdres_info` - is decompressed into the fixed
`2 * MAX_PENDING_SIZE = 512 KiB` scratch buffer (a payload that fits is
returned whole); a payload exceeding 512 KiB fails decompression, the worker
records `-EIO` in the engine's shared `error` (the super fixup cannot mask
it), `fill_mdres_info` returns `-EIO`, and a cluster containing such an item
leaves the shared error non-zero, which the driver reports after drain. -/
theorem c9_restore_decompression_bounded :
    (∀ (uncomp : List Nat → Option (List Nat)) (buf out : List Nat),
      uncomp buf = some out → out.length ≤ MAX_PENDING_SIZE * 2 →
      uncompress_call uncomp (MAX_PENDING_SIZE * 2) buf = .ok out) ∧
    (∀ (uncomp : List Nat → Option (List Nat))
      (fixupf : mdrestore_struct → rst_item → List Nat → List Nat)
      (ts : Nat) (scratch : List Nat) (mdres : mdrestore_struct) (a : rst_item)
      (out : List Nat),
      mdres.compress_method = COMPRESS_ZLIB → uncomp a.buffer = some out →
      MAX_PENDING_SIZE * 2 < out.length → mdres.error = 0 →
      (restore_worker_item uncomp fixupf ts scratch mdres a).1.error = - EIO) ∧
    (∀ (uncomp : List Nat → Option (List Nat)) (mdres : mdrestore_struct)
      (a : rst_item) (out : List Nat),
      mdres.compress_method = COMPRESS_ZLIB → uncomp a.buffer = some out →
      MAX_PENDING_SIZE * 2 < out.length →
      fill_mdres_info uncomp mdres a = .error (- EIO)) ∧
    (∀ (uncomp : List Nat → Option (List Nat))
      (fixupf : mdrestore_struct → rst_item → List Nat → List Nat)
      (ts : Nat) (scratch : List Nat) (items : List rst_item)
      (mdres : mdrestore_struct),
      mdres.compress_method = COMPRESS_ZLIB → mdres.error = 0 →
      (∃ a ∈ items, ∃ out, uncomp a.buffer = some out ∧
        MAX_PENDING_SIZE * 2 < out.length) →
      ¬(process_items uncomp fixupf ts scratch mdres items).1.error = 0) :=
  ⟨uncompress_call_ok,
   fun uncomp fixupf ts scratch mdres a out hz hout hbig he0 =>
     restore_worker_item_oversize uncomp fixupf ts scratch mdres a out hz hout
       hbig he0,
   fun uncomp mdres a out hz hout hbig =>
     fill_mdres_info_oversize uncomp mdres a out hz hout hbig,
   fun uncomp fixupf ts scratch items mdres hz he0 hex =>
     process_items_oversize uncomp fixupf ts scratch items mdres hz he0 hex⟩

/-- Witness for C9: a 512 KiB + 1 payload on a one-worker restore. -/
theorem c9_witness :
    (restore_worker_item
        (fun _ => some (List.replicate (MAX_PENDING_SIZE * 2 + 1) 0))
        (fun _ _ b => b) 0 [] ⟨0, 0, [], [], COMPRESS_ZLIB, 0, false⟩
        ⟨0, []⟩).1.error = - EIO :=
  c9_restore_decompression_bounded.2.1
    (fun _ => some (List.replicate (MAX_PENDING_SIZE * 2 + 1) 0))
    (fun _ _ b => b) 0 [] ⟨0, 0, [], [], COMPRESS_ZLIB, 0, false⟩ ⟨0, []⟩
    (List.replicate (MAX_PENDING_SIZE * 2 + 1) 0)
    rfl rfl (by rw [List.length_replicate]; omega) rfl

/-- C5: whenever the restore loop meets a `BLOCK_SIZE` header block whose
magic is not `HEADER_MAGIC` or whose recorded bytenr differs from the running
stream offset, it stops with `-EIO` and the positioned writes issued so far:
the bad cluster contributes nothing, and no further clusters or items are
read or dispatched; a stream opening with such a block restores nothing. -/
theorem c5_framing_mismatch_fatal (uncomp : List Nat → Option (List Nat))
    (fixupf : mdrestore_struct → rst_item → List Nat → List Nat)
    (ts : Nat) (scratch : List Nat) (fuel : Nat) (mdres : mdrestore_struct)
    (input : List Nat) (bytenr : Nat) (writes : List (Nat × List Nat))
    (old_restore : Bool)
    (hlen : BLOCK_SIZE ≤ input.length)
    (hbad : ¬(readU64le (input.take BLOCK_SIZE) 0 = HEADER_MAGIC ∧
      readU64le (input.take BLOCK_SIZE) 8 = bytenr)) :
    restore_loop uncomp fixupf ts scratch (fuel + 1) mdres input bytenr writes =
      some (- EIO, writes) ∧
    (bytenr = 0 →
      restore_metadump uncomp fixupf ts scratch old_restore input =
        some (- EIO, [])) := by
  have hstep : ∀ (f : Nat) (md : mdrestore_struct) (ws : List (Nat × List Nat)),
      restore_loop uncomp fixupf ts scratch (f + 1) md input bytenr ws =
        some (- EIO, ws) := by
    intro f md ws
    simp only [restore_loop]
    rw [if_neg (by omega), if_pos hbad]
  refine ⟨hstep fuel mdres writes, fun h0 => ?_⟩
  rw [restore_metadump]
  subst h0
  exact hstep (input.length / BLOCK_SIZE) (mdrestore_init_state old_restore) []

/-- Witness for C5: an all-zero first block (magic 0). -/
theorem c5_witness :
    restore_loop (fun _ => none) (fun _ _ b => b) 0 [] 1
      (mdrestore_init_state false) (List.replicate 1024 0) 0 [] =
      some (- EIO, []) :=
  (c5_framing_mismatch_fatal (fun _ => none) (fun _ _ b => b) 0 [] 0
    (mdrestore_init_state false) (List.replicate 1024 0) 0 [] false
    (by rw [List.length_replicate]; decide)
    (by decide)).1

/-- Witness for C10. -/
theorem c10_witness : (update_super c10wit_orig).1 = - EIO :=
  (c10_update_super_partial_on_error c10wit_orig [c10wit_entry] c10wit_bad
    (List.replicate 3171 0)
    (slice c10wit_orig SUPER_DEVID_OFF 8) (slice c10wit_orig SUPER_DEV_UUID_OFF 16)
    (by
      simp only [c10wit_orig, c10wit_pre, c10wit_bad, c10wit_entry, c10wit_chunk,
        entry_bytes, entry_key_bytes, List.length_append, List.length_replicate,
        u64le_length, u32le_length, u16le_length, List.length_cons, List.length_nil])
    rfl rfl
    (by
      rw [c10wit_orig, show SYS_CHUNK_ARRAY_OFF = c10wit_pre.length from by
        simp only [c10wit_pre, List.length_append, List.length_replicate,
          u32le_length, SYS_CHUNK_ARRAY_OFF], List.drop_left]
      simp only [List.map_cons, List.map_nil, List.flatten_cons, List.flatten_nil,
        List.append_nil])
    (by
      intro e he
      rw [List.mem_singleton] at he
      subst he
      simp only [entry_wf]
      refine ⟨by norm_num [c10wit_entry, U64MOD], by decide, by decide⟩)
    (by decide)
    (by decide)
    (by decide)).1

end BtrfsImage
